import Mathlib

/-!
# go-todo-api: request-to-persistence pipeline

A shallow embedding of the todo service: the entity model
(`internal/app/models/todo.go`), the repository over the `todos` table
(`internal/app/repositories/todo_repository.go`), the service
(`internal/app/services/todo_service.go`) and the request handlers
(`internal/app/handlers/todo_handler.go`).

Conventions of the embedding.

* The `todos` table is a list of rows in insertion order; the database handle
  is passed explicitly and every operation returns the table it leaves behind.
* `time.Now()` and `uuid.New()` are inputs: each call site receives the value
  it reads as an argument, one argument per call in the source.
* A clock reading (`created_at`, `updated_at`) is a natural number of
  nanoseconds; a due date is the civil date-time that `time.Parse` reads from
  the text, which is also what `Format` prints.
* A Go `error` is a tree of `errors.New` leaves and `fmt.Errorf("...%w")`
  wrappers; `GoError.Error` is its message.
* Connectivity failures of the store are outside the model: a statement fails
  only through the primary-key constraint on `id`, and a column read from a row
  is the value that was written to it.
-/

namespace TodoApi

/-! ## Dates: `time.Parse(time.RFC3339, s)` and `t.Format(time.RFC3339)` -/

/-- A parsed date-time as `Format` sees it: the civil fields in the zone of the
text, the nanoseconds, and the zone offset as sign, hours and minutes
(`zoneNeg` is false for a zero offset). -/
structure DateTime where
  year : Nat
  month : Nat
  day : Nat
  hour : Nat
  minute : Nat
  second : Nat
  nsec : Nat
  zoneNeg : Bool
  zoneHour : Nat
  zoneMin : Nat
deriving DecidableEq, Repr

/-- Gregorian leap year rule as in `time.isLeap`. -/
def isLeap (year : Nat) : Bool :=
  year % 4 == 0 && (year % 100 != 0 || year % 400 == 0)

/-- Number of days of a month as in `time.daysIn`. -/
def daysIn (month year : Nat) : Nat :=
  if month == 2 then (if isLeap year then 29 else 28)
  else if month == 4 || month == 6 || month == 9 || month == 11 then 30
  else 31

/-- ASCII decimal digit test (`'0' <= c && c <= '9'`). -/
def isDigit (c : Char) : Bool :=
  48 ≤ c.toNat && c.toNat ≤ 57

/-- The closure `parseUint` of `parseRFC3339`: every character a digit and
the value within `[lo, hi]`. -/
def parseUint (cs : List Char) (lo hi : Nat) : Option Nat :=
  if cs.all isDigit then
    let x := cs.foldl (fun acc c => acc * 10 + (c.toNat - 48)) 0
    if x < lo || hi < x then none else some x
  else none

/-- Leading run of digits and the rest of the input. -/
def spanDigits : List Char → List Char × List Char
  | [] => ([], [])
  | c :: cs =>
    if isDigit c then
      let r := spanDigits cs
      (c :: r.1, r.2)
    else ([], c :: cs)

/-- Nanoseconds of a fractional-second digit run as in
`time.parseNanoseconds`: the first nine digits, scaled to nine places. -/
def parseNanoseconds (ds : List Char) : Nat :=
  let kept := ds.take 9
  kept.foldl (fun acc c => acc * 10 + (c.toNat - 48)) 0 * 10 ^ (9 - kept.length)

/-- The optional fractional second of an RFC 3339 text: a `.` followed by at
least one digit.  Returns the nanoseconds and the input after the fraction. -/
def parseFraction (rest : List Char) : Nat × List Char :=
  match rest with
  | '.' :: d :: more =>
    if isDigit d then
      let r := spanDigits (d :: more)
      (parseNanoseconds r.1, r.2)
    else (0, rest)
  | _ => (0, rest)

/-- Zone designator of an RFC 3339 text: `Z`, or a sign and `hh:mm`. -/
def parseZone (cs : List Char) : Option (Bool × Nat × Nat) :=
  if cs = ['Z'] then some (false, 0, 0)
  else if cs.length ≠ 6 then none
  else
    match parseUint ((cs.drop 1).take 2) 0 23, parseUint ((cs.drop 4).take 2) 0 59 with
    | some hr, some mm =>
      if (cs.head? = some '-' || cs.head? = some '+') && cs.get? 3 = some ':' then
        some (cs.head? = some '-', hr, mm)
      else none
    | _, _ => none

/-- The fast path of `time.Parse(time.RFC3339, s)` (`parseRFC3339` of the Go
standard library, Go 1.20 and later): fixed-width date and time, an optional
`.` fraction, then the zone.  When it declines, `time.Parse` goes on to the
general layout parser, `parseLayout` below. -/
def parseRFC3339 (s : String) : Option DateTime :=
  let cs := s.toList
  if cs.length < 19 then none
  else
    match parseUint (cs.take 4) 0 9999, parseUint ((cs.drop 5).take 2) 1 12 with
    | some year, some month =>
      match parseUint ((cs.drop 8).take 2) 1 (daysIn month year),
            parseUint ((cs.drop 11).take 2) 0 23,
            parseUint ((cs.drop 14).take 2) 0 59,
            parseUint ((cs.drop 17).take 2) 0 59 with
      | some day, some hour, some minute, some second =>
        if cs.get? 4 = some '-' && cs.get? 7 = some '-' && cs.get? 10 = some 'T'
            && cs.get? 13 = some ':' && cs.get? 16 = some ':' then
          let frac := parseFraction (cs.drop 19)
          match parseZone frac.2 with
          | some (neg, hr, mm) =>
            some { year := year, month := month, day := day, hour := hour,
                   minute := minute, second := second, nsec := frac.1,
                   zoneNeg := neg && !(hr == 0 && mm == 0), zoneHour := hr, zoneMin := mm }
          | none => none
        else none
      | _, _, _, _ => none
    | _, _ => none

/-- `time.getnum`: one leading digit or two (`fixed` forces two), and the
input after them. -/
def getnum (value : List Char) (fixed : Bool) : Option (Nat × List Char) :=
  match value with
  | [] => none
  | [a] =>
    if isDigit a then (if fixed then none else some (a.toNat - 48, []))
    else none
  | a :: b :: rest =>
    if isDigit a then
      if isDigit b then some ((a.toNat - 48) * 10 + (b.toNat - 48), rest)
      else if fixed then none
      else some (a.toNat - 48, b :: rest)
    else none

/-- `time.skip` for a one-character literal of the layout: the input must
start with it. -/
def skipLiteral (c : Char) (value : List Char) : Option (List Char) :=
  match value with
  | d :: rest => if d = c then some rest else none
  | [] => none

/-- The layout element `2006` in `time.parse`: four digits. -/
def layoutYear (value : List Char) : Option (Nat × List Char) :=
  if value.length < 4 then none
  else
    match parseUint (value.take 4) 0 9999 with
    | some year => some (year, value.drop 4)
    | none => none

/-- The fractional second that `time.parse` reads after the seconds although
the layout has none: `.` or `,` followed by at least one digit. -/
def layoutFraction (value : List Char) : Nat × List Char :=
  match value with
  | c :: d :: more =>
    if (c = '.' || c = ',') && isDigit d then
      let r := spanDigits (d :: more)
      (parseNanoseconds r.1, r.2)
    else (0, value)
  | _ => (0, value)

/-- The layout element `Z07:00` in `time.parse`: `Z`, or a sign, two digits,
`:` and two digits, with hours up to 24 and minutes up to 60.  Returns whether
the sign is `-`, the offset in minutes, and the input after the zone. -/
def layoutZone (value : List Char) : Option (Bool × Nat × List Char) :=
  match value with
  | 'Z' :: rest => some (false, 0, rest)
  | _ =>
    if value.length < 6 then none
    else if value.get? 3 ≠ some ':' then none
    else
      match getnum ((value.drop 1).take 2) true, getnum ((value.drop 4).take 2) true with
      | some (hr, _), some (mm, _) =>
        if 24 < hr || 60 < mm then none
        else if value.head? = some '+' then some (false, hr * 60 + mm, value.drop 6)
        else if value.head? = some '-' then some (true, hr * 60 + mm, value.drop 6)
        else none
      | _, _ => none

/-- The general layout parser `time.parse` run on the layout
`2006-01-02T15:04:05Z07:00` (Go 1.20 and later): four-digit year, two-digit
month and day, an hour of one or two digits, two-digit minute and second, an
optional fraction, the zone, and nothing after it; the day is checked against
the month last.  The zone is kept as the offset it amounts to. -/
def parseLayout (s : String) : Option DateTime := do
  let (year, value) ← layoutYear s.toList
  let value ← skipLiteral '-' value
  let (month, value) ← getnum value true
  if month ≤ 0 || 12 < month then none
  let value ← skipLiteral '-' value
  let (day, value) ← getnum value true
  let value ← skipLiteral 'T' value
  let (hour, value) ← getnum value false
  if 24 ≤ hour then none
  let value ← skipLiteral ':' value
  let (minute, value) ← getnum value true
  if 60 ≤ minute then none
  let value ← skipLiteral ':' value
  let (second, value) ← getnum value true
  if 60 ≤ second then none
  let (nsec, value) := layoutFraction value
  let (neg, offset, value) ← layoutZone value
  if value ≠ [] then none
  if day < 1 || daysIn month year < day then none
  pure { year := year, month := month, day := day, hour := hour, minute := minute,
         second := second, nsec := nsec, zoneNeg := neg && offset != 0,
         zoneHour := offset / 60, zoneMin := offset % 60 }

/-- `time.Parse(time.RFC3339, s)`: the fast path when it accepts the text,
otherwise the general layout parser. -/
def timeParse (s : String) : Option DateTime :=
  match parseRFC3339 s with
  | some t => some t
  | none => parseLayout s

/-- Decimal digit character of a number below ten. -/
def digitChar (n : Nat) : Char :=
  Char.ofNat (48 + n % 10)

/-- Zero-padded two-digit field (`appendInt(b, x, 2)`). -/
def pad2 (n : Nat) : List Char :=
  [digitChar (n / 10), digitChar n]

/-- Zero-padded four-digit field (`appendInt(b, x, 4)`). -/
def pad4 (n : Nat) : List Char :=
  [digitChar (n / 1000), digitChar (n / 100), digitChar (n / 10), digitChar n]

/-- Zone designator printed by the layout element `Z07:00`: `Z` for a zero
offset, otherwise sign, hours and minutes. -/
def formatZone (t : DateTime) : List Char :=
  if t.zoneHour = 0 ∧ t.zoneMin = 0 then ['Z']
  else (if t.zoneNeg then '-' else '+') :: (pad2 t.zoneHour ++ ':' :: pad2 t.zoneMin)

/-- Text printed by `t.Format(time.RFC3339)`: no fractional seconds. -/
def formatRFC3339 (t : DateTime) : String :=
  String.mk (pad4 t.year ++ '-' :: pad2 t.month ++ '-' :: pad2 t.day ++ 'T' :: pad2 t.hour
    ++ ':' :: pad2 t.minute ++ ':' :: pad2 t.second ++ formatZone t)

/-! ## Errors -/

/-- A Go error value: an `errors.New` or driver message, the `*time.ParseError`
of a rejected date text, or a `fmt.Errorf` wrapper `ctx + "%w"`. -/
inductive GoError where
  | text (msg : String)
  | parse (value : String)
  | wrap (ctx : String) (cause : GoError)
deriving DecidableEq, Repr

/-- The message `err.Error()`.  For a parse error the trailing detail naming the
offending layout element is left out. -/
def GoError.Error : GoError → String
  | .text msg => msg
  | .parse value => "parsing time \"" ++ value ++ "\" as \"2006-01-02T15:04:05Z07:00\""
  | .wrap ctx cause => ctx ++ cause.Error

/-- The innermost error of a wrapper chain (what `errors.Unwrap` reaches). -/
def GoError.rootCause : GoError → GoError
  | .wrap _ cause => cause.rootCause
  | e => e

/-- The service's not-found error, `errors.New("todo not found")`. -/
def errNotFound : GoError := .text "todo not found"

/-- The service's validation error for a missing title. -/
def errTitleRequired : GoError := .text "title is required"

/-- The source has no error kinds, only messages.  This names the errors that
report a rule broken by the caller's data: the title rule, and every error that
stems from a rejected due-date text. -/
def GoError.isValidation (e : GoError) : Bool :=
  e == errTitleRequired ||
    match e.rootCause with
    | .parse _ => true
    | _ => false

/-! ## Entity model (`models/todo.go`) -/

/-- The entity `models.Todo`; `DueDate` is the `sql.NullTime` column value and
`DueDateStr` the text serialised as `due_date` (omitted when empty). -/
structure Todo where
  ID : String
  Title : String
  Description : String
  Completed : Bool
  Priority : Int
  DueDate : Option DateTime
  DueDateStr : String
  CreatedAt : Nat
  UpdatedAt : Nat
deriving DecidableEq, Repr

/-- The creation payload `models.TodoCreate`. -/
structure TodoCreate where
  Title : String
  Description : String
  Priority : Int
  DueDate : String
deriving DecidableEq, Repr

/-- The update payload `models.TodoUpdate`: a nil pointer is `none`. -/
structure TodoUpdate where
  Title : Option String
  Description : Option String
  Completed : Option Bool
  Priority : Option Int
  DueDate : Option String
deriving DecidableEq, Repr

/-- `models.NewTodo`: `newId` is the value of `uuid.New().String()`, `now1` and
`now2` the two successive readings of `time.Now()`. -/
def NewTodo (newId : String) (now1 now2 : Nat) (create : TodoCreate) : Except GoError Todo :=
  let todo : Todo :=
    { ID := newId, Title := create.Title, Description := create.Description,
      Completed := false, Priority := create.Priority, DueDate := none, DueDateStr := "",
      CreatedAt := now1, UpdatedAt := now2 }
  if create.DueDate ≠ "" then
    match timeParse create.DueDate with
    | none => .error (.parse create.DueDate)
    | some dueDate => .ok { todo with DueDate := some dueDate, DueDateStr := create.DueDate }
  else .ok todo

/-- `Todo.FormatDates`: a valid due date is rendered into `DueDateStr`. -/
def Todo.FormatDates (t : Todo) : Todo :=
  match t.DueDate with
  | some d => { t with DueDateStr := formatRFC3339 d }
  | none => t

/-! ## The `todos` table and the repository (`repositories/todo_repository.go`) -/

/-- One row of the table `todos` (`database.createTables`). -/
structure Row where
  id : String
  title : String
  description : String
  completed : Bool
  priority : Int
  due_date : Option DateTime
  created_at : Nat
  updated_at : Nat
deriving DecidableEq, Repr

/-- The table `todos`, rows in insertion order. -/
abbrev Table := List Row

/-- The column values bound by the `INSERT` of `Create`. -/
def Todo.toRow (t : Todo) : Row :=
  { id := t.ID, title := t.Title, description := t.Description, completed := t.Completed,
    priority := t.Priority, due_date := t.DueDate, created_at := t.CreatedAt,
    updated_at := t.UpdatedAt }

/-- `Scan` of a selected row into a fresh `models.Todo`, followed by
`FormatDates`, as done by `GetByID` and `GetAll`. -/
def Row.scan (r : Row) : Todo :=
  Todo.FormatDates
    { ID := r.id, Title := r.title, Description := r.description, Completed := r.completed,
      Priority := r.priority, DueDate := r.due_date, DueDateStr := "",
      CreatedAt := r.created_at, UpdatedAt := r.updated_at }

/-- `ORDER BY priority DESC, created_at DESC`: `a` may stand before `b`. -/
def orderedBefore (a b : Row) : Prop :=
  b.priority < a.priority ∨ (a.priority = b.priority ∧ b.created_at ≤ a.created_at)

instance : DecidableRel orderedBefore := fun a b => by
  unfold orderedBefore
  exact inferInstance

namespace TodoRepository

/-- `TodoRepository.Create`: the `INSERT`; it is refused when the primary key
`id` is already taken. -/
def Create (db : Table) (todo : Todo) : Except GoError Unit × Table :=
  if db.any (fun r => r.id == todo.ID) then
    (.error (.wrap "failed to create todo: " (.text "UNIQUE constraint failed: todos.id")), db)
  else (.ok (), db ++ [todo.toRow])

/-- `TodoRepository.GetByID`: the row `WHERE id = ?`, or `none` for
`sql.ErrNoRows`. -/
def GetByID (db : Table) (id : String) : Except GoError (Option Todo) :=
  match db.find? (fun r => r.id == id) with
  | none => .ok none
  | some r => .ok (some r.scan)

/-- `TodoRepository.GetAll`: optional `WHERE completed = ?`, then
`ORDER BY priority DESC, created_at DESC`, compared on the clock readings; rows
that tie on both keys keep insertion order. -/
def GetAll (db : Table) (completed : Option Bool) : Except GoError (List Todo) :=
  let selected : Table :=
    match completed with
    | some c => db.filter (fun r => r.completed == c)
    | none => db
  .ok ((selected.insertionSort orderedBefore).map Row.scan)

/-- The `SET` clause of the `UPDATE` of `Update`: the six assigned columns. -/
def setColumns (r : Row) (todo : Todo) : Row :=
  { r with title := todo.Title, description := todo.Description,
           completed := todo.Completed, priority := todo.Priority,
           due_date := todo.DueDate, updated_at := todo.UpdatedAt }

/-- The `UPDATE todos SET ... WHERE id = ?` statement of `Update`. -/
def execUpdate (db : Table) (todo : Todo) : Table :=
  db.map (fun r => if r.id = todo.ID then setColumns r todo else r)

/-- The due-date step of `Update`: empty text clears, other text is parsed. -/
def applyDueDate (todo : Todo) (dueDate : Option String) : Except GoError Todo :=
  match dueDate with
  | none => .ok todo
  | some s =>
    if s = "" then .ok { todo with DueDate := none, DueDateStr := "" }
    else
      match timeParse s with
      | none => .error (.wrap "invalid due date format: " (.parse s))
      | some d => .ok { todo with DueDate := some d, DueDateStr := s }

/-- The four plain assignments of `Update`: a field is overwritten when its
pointer in the payload is not nil. -/
def applyFields (todo : Todo) (update : TodoUpdate) : Todo :=
  let todo := match update.Title with
    | some v => { todo with Title := v }
    | none => todo
  let todo := match update.Description with
    | some v => { todo with Description := v }
    | none => todo
  let todo := match update.Completed with
    | some v => { todo with Completed := v }
    | none => todo
  match update.Priority with
  | some v => { todo with Priority := v }
  | none => todo

/-- `TodoRepository.Update`; `now` is the reading of `time.Now()` taken for
`updated_at`. -/
def Update (db : Table) (now : Nat) (id : String) (update : TodoUpdate) :
    Except GoError (Option Todo) × Table :=
  match GetByID db id with
  | .error err => (.error err, db)
  | .ok none => (.ok none, db)
  | .ok (some todo) =>
    match applyDueDate (applyFields todo update) update.DueDate with
    | .error err => (.error err, db)
    | .ok todo =>
      let todo := { todo with UpdatedAt := now }
      (.ok (some todo), execUpdate db todo)

/-- `TodoRepository.Delete`: the `DELETE ... WHERE id = ?`; zero affected rows
is not an error. -/
def Delete (db : Table) (id : String) : Except GoError Unit × Table :=
  (.ok (), db.filter (fun r => r.id != id))

end TodoRepository

/-! ## The service (`services/todo_service.go`) -/

namespace TodoService

/-- `TodoService.CreateTodo`. -/
def CreateTodo (db : Table) (newId : String) (now1 now2 : Nat) (create : TodoCreate) :
    Except GoError Todo × Table :=
  if create.Title = "" then (.error errTitleRequired, db)
  else
    match NewTodo newId now1 now2 create with
    | .error err => (.error (.wrap "failed to create todo model: " err), db)
    | .ok todo =>
      match TodoRepository.Create db todo with
      | (.error err, db1) => (.error (.wrap "failed to save todo: " err), db1)
      | (.ok _, db1) => (.ok todo, db1)

/-- `TodoService.GetTodoByID`. -/
def GetTodoByID (db : Table) (id : String) : Except GoError Todo :=
  match TodoRepository.GetByID db id with
  | .error err => .error (.wrap "failed to get todo: " err)
  | .ok none => .error errNotFound
  | .ok (some todo) => .ok todo

/-- `TodoService.GetAllTodos`. -/
def GetAllTodos (db : Table) (completed : Option Bool) : Except GoError (List Todo) :=
  match TodoRepository.GetAll db completed with
  | .error err => .error (.wrap "failed to get todos: " err)
  | .ok todos => .ok todos

/-- `TodoService.UpdateTodo`. -/
def UpdateTodo (db : Table) (now : Nat) (id : String) (update : TodoUpdate) :
    Except GoError Todo × Table :=
  match TodoRepository.GetByID db id with
  | .error err => (.error (.wrap "failed to check if todo exists: " err), db)
  | .ok none => (.error errNotFound, db)
  | .ok (some _) =>
    match TodoRepository.Update db now id update with
    | (.error err, db1) => (.error (.wrap "failed to update todo: " err), db1)
    | (.ok none, db1) => (.error errNotFound, db1)
    | (.ok (some updated), db1) => (.ok updated, db1)

/-- `TodoService.DeleteTodo`. -/
def DeleteTodo (db : Table) (id : String) : Except GoError Unit × Table :=
  match TodoRepository.GetByID db id with
  | .error err => (.error (.wrap "failed to check if todo exists: " err), db)
  | .ok none => (.error errNotFound, db)
  | .ok (some _) =>
    match TodoRepository.Delete db id with
    | (.error err, db1) => (.error (.wrap "failed to delete todo: " err), db1)
    | (.ok _, db1) => (.ok (), db1)

end TodoService

/-! ## The request handlers (`handlers/todo_handler.go`, `pkg/utils/response.go`) -/

/-- `utils.ErrorResponse`. -/
structure ErrorResponse where
  Success : Bool
  Message : String
deriving DecidableEq, Repr

/-- What a handler writes as the response body. -/
inductive Body where
  | failure (e : ErrorResponse)
  | todo (t : Todo)
  | todos (ts : List Todo)
  | empty
deriving DecidableEq, Repr

/-- An HTTP response: status code and body. -/
structure Response where
  status : Nat
  body : Body
deriving DecidableEq, Repr

/-- `fiber.StatusOK`, the status of a plain `c.JSON`. -/
def StatusOK : Nat := 200
/-- `fiber.StatusCreated`. -/
def StatusCreated : Nat := 201
/-- `fiber.StatusNoContent`. -/
def StatusNoContent : Nat := 204
/-- `fiber.StatusBadRequest`. -/
def StatusBadRequest : Nat := 400
/-- `fiber.StatusNotFound`. -/
def StatusNotFound : Nat := 404
/-- `fiber.StatusInternalServerError`. -/
def StatusInternalServerError : Nat := 500

/-- `utils.SendError`. -/
def SendError (status : Nat) (message : String) : Response :=
  { status := status, body := .failure { Success := false, Message := message } }

namespace TodoHandler

/-- `TodoHandler.CreateTodo`; `input` is the outcome of `c.BodyParser`, `none`
when the body is rejected. -/
def CreateTodo (db : Table) (newId : String) (now1 now2 : Nat) (input : Option TodoCreate) :
    Response × Table :=
  match input with
  | none => (SendError StatusBadRequest "Invalid request body", db)
  | some input =>
    match TodoService.CreateTodo db newId now1 now2 input with
    | (.error err, db1) => (SendError StatusInternalServerError err.Error, db1)
    | (.ok todo, db1) => ({ status := StatusCreated, body := .todo todo }, db1)

/-- `TodoHandler.GetAllTodos`; `completed` is the filter read from the query. -/
def GetAllTodos (db : Table) (completed : Option Bool) : Response :=
  match TodoService.GetAllTodos db completed with
  | .error err => SendError StatusInternalServerError err.Error
  | .ok todos => { status := StatusOK, body := .todos todos }

/-- The status chosen for a service error by `GetTodoByID`, `UpdateTodo` and
`DeleteTodo`. -/
def errorStatus (err : GoError) : Nat :=
  if err.Error = "todo not found" then StatusNotFound else StatusInternalServerError

/-- `TodoHandler.GetTodoByID`. -/
def GetTodoByID (db : Table) (id : String) : Response :=
  match TodoService.GetTodoByID db id with
  | .error err => SendError (errorStatus err) err.Error
  | .ok todo => { status := StatusOK, body := .todo todo }

/-- `TodoHandler.UpdateTodo`; `input` is the outcome of `c.BodyParser`. -/
def UpdateTodo (db : Table) (now : Nat) (id : String) (input : Option TodoUpdate) :
    Response × Table :=
  match input with
  | none => (SendError StatusBadRequest "Invalid request body", db)
  | some input =>
    match TodoService.UpdateTodo db now id input with
    | (.error err, db1) => (SendError (errorStatus err) err.Error, db1)
    | (.ok todo, db1) => ({ status := StatusOK, body := .todo todo }, db1)

/-- `TodoHandler.DeleteTodo`. -/
def DeleteTodo (db : Table) (id : String) : Response × Table :=
  match TodoService.DeleteTodo db id with
  | (.error err, db1) => (SendError (errorStatus err) err.Error, db1)
  | (.ok _, db1) => ({ status := StatusNoContent, body := .empty }, db1)

end TodoHandler

/-! ## Concrete inputs used to instantiate the theorems -/

/-- A stored todo with a due date. -/
def exampleRow : Row :=
  { id := "t1", title := "write report", description := "quarterly", completed := false,
    priority := 2, due_date := timeParse "2024-01-15T10:00:00Z", created_at := 100,
    updated_at := 100 }

/-- A table holding `exampleRow` only. -/
def exampleTable : Table := [exampleRow]

/-- An update payload that carries `completed = true` and nothing else. -/
def completeOnly : TodoUpdate :=
  { Title := none, Description := none, Completed := some true, Priority := none,
    DueDate := none }

/-- An update payload that carries only the given `due_date` text. -/
def dueOnly (s : String) : TodoUpdate :=
  { Title := none, Description := none, Completed := none, Priority := none,
    DueDate := some s }

/-- A creation payload with a title and nothing else. -/
def plainCreate : TodoCreate :=
  { Title := "buy milk", Description := "", Priority := 0, DueDate := "" }

/-- The table after creating A (priority 1), B (priority 5) and C (priority 3)
in that order through the service and then completing A and B. -/
def abcTable : Table :=
  let s1 := (TodoService.CreateTodo [] "A" 10 11
    { Title := "A", Description := "", Priority := 1, DueDate := "" }).2
  let s2 := (TodoService.CreateTodo s1 "B" 20 21
    { Title := "B", Description := "", Priority := 5, DueDate := "" }).2
  let s3 := (TodoService.CreateTodo s2 "C" 30 31
    { Title := "C", Description := "", Priority := 3, DueDate := "" }).2
  let s4 := (TodoService.UpdateTodo s3 40 "A" completeOnly).2
  (TodoService.UpdateTodo s4 50 "B" completeOnly).2

/-- An update payload with an unparseable `due_date` next to other members. -/
def badDueUpdate : TodoUpdate :=
  { Title := some "renamed", Description := none, Completed := some true, Priority := some 9,
    DueDate := some "tomorrow" }

/-- An update payload that supplies the empty title and nothing else. -/
def emptyTitleUpdate : TodoUpdate :=
  { Title := some "", Description := none, Completed := none, Priority := none,
    DueDate := none }

/-- An update payload with no member at all. -/
def noChangeUpdate : TodoUpdate :=
  { Title := none, Description := none, Completed := none, Priority := none, DueDate := none }

/-! ## Sequences of service calls -/

/-- One call of a service operation that can change the store, together with
the generated id and the clock readings it is given. -/
inductive Call where
  | create (newId : String) (now1 now2 : Nat) (input : TodoCreate)
  | update (now : Nat) (id : String) (input : TodoUpdate)
  | delete (id : String)
deriving Repr

/-- The clock readings of a call, in the order the code takes them. -/
def Call.readings : Call → List Nat
  | .create _ now1 now2 _ => [now1, now2]
  | .update now _ _ => [now]
  | .delete _ => []

/-- The store a call leaves behind. -/
def Call.run (db : Table) : Call → Table
  | .create newId now1 now2 input => (TodoService.CreateTodo db newId now1 now2 input).2
  | .update now id input => (TodoService.UpdateTodo db now id input).2
  | .delete id => (TodoService.DeleteTodo db id).2

/-- The store after a sequence of calls, the first call first. -/
def runCalls (db : Table) (calls : List Call) : Table :=
  calls.foldl Call.run db

/-- A run of five calls at non-decreasing clock readings: a create, an update
that changes no value, a second create, its delete, and a completing update. -/
def exampleCalls : List Call :=
  [.create "t1" 100 101 plainCreate, .update 102 "t1" noChangeUpdate,
   .create "t2" 102 103 plainCreate, .delete "t2", .update 105 "t1" completeOnly]

/-! # Theorems -/

/-! ## Lookup lemmas -/

theorem getByID_eq (db : Table) (id : String) :
    TodoRepository.GetByID db id = .ok ((db.find? (fun r => r.id == id)).map Row.scan) := by
  unfold TodoRepository.GetByID
  cases db.find? (fun r => r.id == id) <;> rfl

theorem getTodoByID_ok_iff (db : Table) (id : String) (t : Todo) :
    TodoService.GetTodoByID db id = .ok t ↔
      ∃ r, db.find? (fun r => r.id == id) = some r ∧ t = r.scan := by
  unfold TodoService.GetTodoByID
  rw [getByID_eq]
  cases h : db.find? (fun r => r.id == id) with
  | none => simp [errNotFound]
  | some r =>
    simp only [Option.map_some']
    constructor
    · intro h1
      injection h1 with h1
      exact ⟨r, rfl, h1.symm⟩
    · rintro ⟨r1, h1, h2⟩
      injection h1 with h1
      subst h1
      rw [h2]

theorem getTodoByID_none (db : Table) (id : String)
    (h : db.find? (fun r => r.id == id) = none) :
    TodoService.GetTodoByID db id = .error errNotFound := by
  unfold TodoService.GetTodoByID
  rw [getByID_eq, h]
  rfl

theorem find_id_eq (db : Table) (id : String) (r : Row)
    (h : db.find? (fun r => r.id == id) = some r) : r.id = id := by
  have := List.find?_some h
  simpa using this

/-! ## Effect of the `UPDATE` statement -/

theorem find_execUpdate (db : Table) (todo : Todo) (id : String) :
    (TodoRepository.execUpdate db todo).find? (fun r => r.id == id) =
      (db.find? (fun r => r.id == id)).map (fun r =>
        if r.id = todo.ID then TodoRepository.setColumns r todo else r) := by
  unfold TodoRepository.execUpdate
  rw [List.find?_map]
  congr 2
  funext r
  simp only [Function.comp]
  split <;> rfl

theorem execUpdate_ids (db : Table) (todo : Todo) :
    (TodoRepository.execUpdate db todo).map Row.id = db.map Row.id := by
  unfold TodoRepository.execUpdate
  rw [List.map_map]
  apply List.map_congr_left
  intro r _
  simp only [Function.comp]
  split <;> rfl

theorem execUpdate_created (db : Table) (todo : Todo) :
    (TodoRepository.execUpdate db todo).map Row.created_at = db.map Row.created_at := by
  unfold TodoRepository.execUpdate
  rw [List.map_map]
  apply List.map_congr_left
  intro r _
  simp only [Function.comp]
  split <;> rfl

theorem execUpdate_others (db : Table) (todo : Todo) :
    (TodoRepository.execUpdate db todo).filter (fun r => r.id != todo.ID) =
      db.filter (fun r => r.id != todo.ID) := by
  unfold TodoRepository.execUpdate
  induction db with
  | nil => rfl
  | cons a l ih =>
    by_cases h : a.id = todo.ID
    · have h1 : (TodoRepository.setColumns a todo).id = todo.ID := h
      simp only [List.map_cons, h, if_true, List.filter_cons, h1, bne_self_eq_false,
        Bool.false_eq_true, if_false]
      exact ih
    · have h1 : (a.id != todo.ID) = true := by simpa using h
      simp only [List.map_cons, h, if_false, List.filter_cons, h1, if_true]
      rw [ih]

theorem applyFields_eq (t : Todo) (u : TodoUpdate) :
    TodoRepository.applyFields t u =
      { ID := t.ID, Title := u.Title.getD t.Title,
        Description := u.Description.getD t.Description,
        Completed := u.Completed.getD t.Completed, Priority := u.Priority.getD t.Priority,
        DueDate := t.DueDate, DueDateStr := t.DueDateStr, CreatedAt := t.CreatedAt,
        UpdatedAt := t.UpdatedAt } := by
  rcases u with ⟨ti, de, co, pr, du⟩
  cases ti <;> cases de <;> cases co <;> cases pr <;> rfl

theorem applyDueDate_ok (t t1 : Todo) (du : Option String)
    (h : TodoRepository.applyDueDate t du = .ok t1) :
    t1.ID = t.ID ∧ t1.Title = t.Title ∧ t1.Description = t.Description ∧
    t1.Completed = t.Completed ∧ t1.Priority = t.Priority ∧
    t1.CreatedAt = t.CreatedAt ∧ t1.UpdatedAt = t.UpdatedAt ∧
    t1.DueDate = du.elim t.DueDate (fun s => if s = "" then none else timeParse s) := by
  unfold TodoRepository.applyDueDate at h
  cases du with
  | none =>
    simp only [Except.ok.injEq] at h
    subst h
    simp
  | some s =>
    simp only at h
    by_cases hs : s = ""
    · simp only [hs, if_true, Except.ok.injEq] at h
      subst h
      simp [hs]
    · simp only [hs, if_false] at h
      cases hp : timeParse s with
      | none => simp [hp] at h
      | some d =>
        simp only [hp, Except.ok.injEq] at h
        subst h
        simp [hs, hp]

/-- Shape of a successful service update of an id whose first row is `r`: the
entity written back, and the table after the `UPDATE`. -/
theorem updateTodo_ok_shape (db : Table) (now : Nat) (id : String) (update : TodoUpdate)
    (r : Row) (updated : Todo) (db1 : Table)
    (hfind : db.find? (fun r => r.id == id) = some r)
    (hupd : TodoService.UpdateTodo db now id update = (.ok updated, db1)) :
    db1 = TodoRepository.execUpdate db updated ∧
    updated.ID = id ∧ updated.CreatedAt = r.created_at ∧ updated.UpdatedAt = now ∧
    updated.Title = update.Title.getD r.title ∧
    updated.Description = update.Description.getD r.description ∧
    updated.Completed = update.Completed.getD r.completed ∧
    updated.Priority = update.Priority.getD r.priority ∧
    updated.DueDate =
      update.DueDate.elim r.due_date (fun s => if s = "" then none else timeParse s) := by
  have hid := find_id_eq db id r hfind
  unfold TodoService.UpdateTodo at hupd
  rw [getByID_eq, hfind] at hupd
  simp only [Option.map_some'] at hupd
  unfold TodoRepository.Update at hupd
  rw [getByID_eq, hfind] at hupd
  simp only [Option.map_some'] at hupd
  cases hd : TodoRepository.applyDueDate (TodoRepository.applyFields r.scan update)
      update.DueDate with
  | error err => simp [hd] at hupd
  | ok t1 =>
    simp only [hd, Prod.mk.injEq, Except.ok.injEq] at hupd
    obtain ⟨hu, hdb⟩ := hupd
    have h := applyDueDate_ok _ _ _ hd
    rw [applyFields_eq] at h
    obtain ⟨h1, h2, h3, h4, h5, h6, h7, h8⟩ := h
    have hscan : ∀ r : Row, r.scan.ID = r.id ∧ r.scan.Title = r.title ∧
        r.scan.Description = r.description ∧ r.scan.Completed = r.completed ∧
        r.scan.Priority = r.priority ∧ r.scan.DueDate = r.due_date ∧
        r.scan.CreatedAt = r.created_at := by
      intro r
      unfold Row.scan Todo.FormatDates
      cases r.due_date <;> simp
    obtain ⟨s1, s2, s3, s4, s5, s6, s7⟩ := hscan r
    subst hu
    simp only at h1 h2 h3 h4 h5 h6 h8
    refine ⟨hdb.symm, ?_, ?_, rfl, ?_, ?_, ?_, ?_, ?_⟩
    · simp [h1, s1, hid]
    · simp [h6, s7]
    · simp [h2, s2]
    · simp [h3, s3]
    · simp [h4, s4]
    · simp [h5, s5]
    · simp only [h8, s6]

theorem timeParse_empty : timeParse "" = none := by
  decide

theorem scan_fields (r : Row) :
    r.scan.ID = r.id ∧ r.scan.Title = r.title ∧ r.scan.Description = r.description ∧
    r.scan.Completed = r.completed ∧ r.scan.Priority = r.priority ∧
    r.scan.DueDate = r.due_date ∧ r.scan.CreatedAt = r.created_at ∧
    r.scan.UpdatedAt = r.updated_at ∧
    r.scan.DueDateStr = (r.due_date.map formatRFC3339).getD "" := by
  unfold Row.scan Todo.FormatDates
  cases r.due_date <;> simp

theorem scan_setColumns (r : Row) (t : Todo) :
    (TodoRepository.setColumns r t).scan.ID = r.id ∧
    (TodoRepository.setColumns r t).scan.Title = t.Title ∧
    (TodoRepository.setColumns r t).scan.Description = t.Description ∧
    (TodoRepository.setColumns r t).scan.Completed = t.Completed ∧
    (TodoRepository.setColumns r t).scan.Priority = t.Priority ∧
    (TodoRepository.setColumns r t).scan.DueDate = t.DueDate ∧
    (TodoRepository.setColumns r t).scan.CreatedAt = r.created_at ∧
    (TodoRepository.setColumns r t).scan.UpdatedAt = t.UpdatedAt ∧
    (TodoRepository.setColumns r t).scan.DueDateStr =
      (t.DueDate.map formatRFC3339).getD "" :=
  scan_fields (TodoRepository.setColumns r t)

theorem getTodoByID_execUpdate (db : Table) (id : String) (r : Row) (updated : Todo)
    (hfind : db.find? (fun r => r.id == id) = some r) (hid : updated.ID = id) :
    TodoService.GetTodoByID (TodoRepository.execUpdate db updated) id =
      .ok (TodoRepository.setColumns r updated).scan := by
  rw [getTodoByID_ok_iff, find_execUpdate, hfind]
  have h := find_id_eq db id r hfind
  refine ⟨_, ?_, rfl⟩
  simp [h, hid]

/-- The service accepts an update of an existing id as soon as the due-date
step goes through. -/
theorem updateTodo_accepts (db : Table) (now : Nat) (id : String) (update : TodoUpdate)
    (r : Row) (hfind : db.find? (fun r => r.id == id) = some r)
    (hdue : update.DueDate = none ∨ update.DueDate = some "" ∨
      ∃ s d, update.DueDate = some s ∧ timeParse s = some d) :
    ∃ updated db1, TodoService.UpdateTodo db now id update = (.ok updated, db1) := by
  unfold TodoService.UpdateTodo
  rw [getByID_eq, hfind]
  simp only [Option.map_some']
  unfold TodoRepository.Update
  rw [getByID_eq, hfind]
  simp only [Option.map_some']
  unfold TodoRepository.applyDueDate
  rcases hdue with h | h | ⟨s, d, h, hp⟩
  · rw [h]
    exact ⟨_, _, rfl⟩
  · rw [h]
    exact ⟨_, _, rfl⟩
  · rw [h]
    have hs : s ≠ "" := by
      intro hs
      rw [hs, timeParse_empty] at hp
      exact Option.noConfusion hp
    simp only [hs, if_false, hp]
    exact ⟨_, _, rfl⟩

/-- C1: a successful `UpdateTodo` of an existing id changes only the fields
present in the payload.  In the entity read back afterwards each of title,
description, completed and priority is the payload value when present and the
prior value when absent, an omitted due date leaves the due date as it was, id
and created_at are the prior ones, and updated_at is the clock reading of the
update.  No row changes its id or created_at, and rows of other ids are left
as they were. -/
theorem updateTodo_changes_only_present_fields (db : Table) (now : Nat) (id : String)
    (update : TodoUpdate) (old updated : Todo) (db1 : Table)
    (hrow : TodoService.GetTodoByID db id = .ok old)
    (hupd : TodoService.UpdateTodo db now id update = (.ok updated, db1)) :
    ∃ new : Todo, TodoService.GetTodoByID db1 id = .ok new ∧
      new.ID = old.ID ∧ new.CreatedAt = old.CreatedAt ∧ new.UpdatedAt = now ∧
      new.Title = update.Title.getD old.Title ∧
      new.Description = update.Description.getD old.Description ∧
      new.Completed = update.Completed.getD old.Completed ∧
      new.Priority = update.Priority.getD old.Priority ∧
      (update.DueDate = none → new.DueDate = old.DueDate ∧ new.DueDateStr = old.DueDateStr) ∧
      db1.map Row.id = db.map Row.id ∧
      db1.map Row.created_at = db.map Row.created_at ∧
      db1.filter (fun r => r.id != id) = db.filter (fun r => r.id != id) := by
  obtain ⟨r, hfind, rfl⟩ := (getTodoByID_ok_iff db id old).1 hrow
  obtain ⟨hdb, hid, hcr, hup, hti, hde, hco, hpr, hdu⟩ :=
    updateTodo_ok_shape db now id update r updated db1 hfind hupd
  subst hdb
  refine ⟨_, getTodoByID_execUpdate db id r updated hfind hid, ?_⟩
  obtain ⟨s1, s2, s3, s4, s5, s6, s7, s8, s9⟩ := scan_fields r
  obtain ⟨n1, n2, n3, n4, n5, n6, n7, n8, n9⟩ := scan_setColumns r updated
  refine ⟨by rw [n1, s1], by rw [n7, s7], by rw [n8, hup], by rw [n2, s2, hti],
    by rw [n3, s3, hde], by rw [n4, s4, hco], by rw [n5, s5, hpr], ?_,
    execUpdate_ids db updated, execUpdate_created db updated, ?_⟩
  · intro hnone
    rw [hnone] at hdu
    simp only [Option.elim] at hdu
    rw [n6, n9, s6, s9, hdu]
    exact ⟨rfl, rfl⟩
  · rw [← hid]
    exact execUpdate_others db updated

/-- C2: the due_date member of an update payload is three-valued.  For an
existing id the update is accepted in each of the three cases, and the entity
read back afterwards has no due date when the member is the empty string, the
parsed date when the member parses, and the prior due date when the member is
omitted. -/
theorem updateTodo_due_date_three_valued (db : Table) (now : Nat) (id : String)
    (update : TodoUpdate) (old : Todo)
    (hrow : TodoService.GetTodoByID db id = .ok old) :
    (update.DueDate = some "" →
      ∃ updated db1 new, TodoService.UpdateTodo db now id update = (.ok updated, db1) ∧
        TodoService.GetTodoByID db1 id = .ok new ∧
        new.DueDate = none ∧ new.DueDateStr = "") ∧
    (∀ s d, update.DueDate = some s → timeParse s = some d →
      ∃ updated db1 new, TodoService.UpdateTodo db now id update = (.ok updated, db1) ∧
        TodoService.GetTodoByID db1 id = .ok new ∧
        new.DueDate = some d ∧ new.DueDateStr = formatRFC3339 d) ∧
    (update.DueDate = none →
      ∃ updated db1 new, TodoService.UpdateTodo db now id update = (.ok updated, db1) ∧
        TodoService.GetTodoByID db1 id = .ok new ∧
        new.DueDate = old.DueDate ∧ new.DueDateStr = old.DueDateStr) := by
  obtain ⟨r, hfind, rfl⟩ := (getTodoByID_ok_iff db id old).1 hrow
  have key : ∀ updated db1, TodoService.UpdateTodo db now id update = (.ok updated, db1) →
      ∃ new, TodoService.GetTodoByID db1 id = .ok new ∧
        new.DueDate = update.DueDate.elim r.due_date
          (fun s => if s = "" then none else timeParse s) ∧
        new.DueDateStr = (new.DueDate.map formatRFC3339).getD "" := by
    intro updated db1 hupd
    obtain ⟨hdb, hid, -, -, -, -, -, -, hdu⟩ :=
      updateTodo_ok_shape db now id update r updated db1 hfind hupd
    subst hdb
    refine ⟨_, getTodoByID_execUpdate db id r updated hfind hid, ?_⟩
    obtain ⟨-, -, -, -, -, n6, -, -, n9⟩ := scan_setColumns r updated
    rw [n6, n9, hdu]
    exact ⟨rfl, rfl⟩
  obtain ⟨-, -, -, -, -, s6, -, -, s9⟩ := scan_fields r
  refine ⟨?_, ?_, ?_⟩
  · intro h
    obtain ⟨updated, db1, hupd⟩ :=
      updateTodo_accepts db now id update r hfind (Or.inr (Or.inl h))
    obtain ⟨new, hget, hd, hs⟩ := key updated db1 hupd
    rw [h] at hd
    simp only [Option.elim, if_true] at hd
    refine ⟨updated, db1, new, hupd, hget, hd, ?_⟩
    rw [hs, hd]
    rfl
  · intro s d h hp
    obtain ⟨updated, db1, hupd⟩ :=
      updateTodo_accepts db now id update r hfind (Or.inr (Or.inr ⟨s, d, h, hp⟩))
    obtain ⟨new, hget, hd, hs⟩ := key updated db1 hupd
    have hne : s ≠ "" := by
      intro hs
      rw [hs, timeParse_empty] at hp
      exact Option.noConfusion hp
    rw [h] at hd
    simp only [Option.elim, hne, if_false, hp] at hd
    refine ⟨updated, db1, new, hupd, hget, hd, ?_⟩
    rw [hs, hd]
    rfl
  · intro h
    obtain ⟨updated, db1, hupd⟩ := updateTodo_accepts db now id update r hfind (Or.inl h)
    obtain ⟨new, hget, hd, hs⟩ := key updated db1 hupd
    rw [h] at hd
    simp only [Option.elim] at hd
    refine ⟨updated, db1, new, hupd, hget, by rw [hd, s6], ?_⟩
    rw [hs, hd, s9]

/-- C3: `CreateTodo` with an empty title, whatever the other members of the
input and whatever the store, fails with the validation error whose message is
"title is required" and returns the store it was given. -/
theorem createTodo_empty_title_rejected (db : Table) (newId : String) (now1 now2 : Nat)
    (description : String) (priority : Int) (dueDate : String) :
    TodoService.CreateTodo db newId now1 now2
        { Title := "", Description := description, Priority := priority, DueDate := dueDate } =
      (.error errTitleRequired, db) ∧
    errTitleRequired.Error = "title is required" ∧
    errTitleRequired.isValidation = true := by
  refine ⟨?_, rfl, by decide⟩
  unfold TodoService.CreateTodo
  simp

/-- Witness of C1: on the one-row table, the payload carrying only
`completed = true` at clock reading 200. -/
theorem updateTodo_changes_only_present_fields_witness :
    TodoService.GetTodoByID exampleTable "t1" = .ok exampleRow.scan ∧
    ∃ new : Todo,
      TodoService.GetTodoByID (TodoService.UpdateTodo exampleTable 200 "t1" completeOnly).2 "t1"
        = .ok new ∧
      new.ID = exampleRow.scan.ID ∧ new.CreatedAt = exampleRow.scan.CreatedAt ∧
      new.UpdatedAt = 200 ∧
      new.Title = completeOnly.Title.getD exampleRow.scan.Title ∧
      new.Description = completeOnly.Description.getD exampleRow.scan.Description ∧
      new.Completed = completeOnly.Completed.getD exampleRow.scan.Completed ∧
      new.Priority = completeOnly.Priority.getD exampleRow.scan.Priority ∧
      (completeOnly.DueDate = none →
        new.DueDate = exampleRow.scan.DueDate ∧ new.DueDateStr = exampleRow.scan.DueDateStr) ∧
      (TodoService.UpdateTodo exampleTable 200 "t1" completeOnly).2.map Row.id
        = exampleTable.map Row.id ∧
      (TodoService.UpdateTodo exampleTable 200 "t1" completeOnly).2.map Row.created_at
        = exampleTable.map Row.created_at ∧
      (TodoService.UpdateTodo exampleTable 200 "t1" completeOnly).2.filter
          (fun r => r.id != "t1")
        = exampleTable.filter (fun r => r.id != "t1") :=
  ⟨rfl, updateTodo_changes_only_present_fields exampleTable 200 "t1" completeOnly
    exampleRow.scan _ _ rfl rfl⟩

/-- Witness of C2: the three forms of the due_date member on the one-row
table, whose todo is due 2024-01-15T10:00:00Z; the text with a one-digit hour
is among those that parse. -/
theorem updateTodo_due_date_three_valued_witness :
    (∃ updated db1 new,
      TodoService.UpdateTodo exampleTable 200 "t1" (dueOnly "") = (.ok updated, db1) ∧
      TodoService.GetTodoByID db1 "t1" = .ok new ∧ new.DueDate = none ∧ new.DueDateStr = "") ∧
    (∃ updated db1 new,
      TodoService.UpdateTodo exampleTable 200 "t1" (dueOnly "2025-03-01T08:30:00+02:00")
        = (.ok updated, db1) ∧
      TodoService.GetTodoByID db1 "t1" = .ok new ∧
      new.DueDate = timeParse "2025-03-01T08:30:00+02:00" ∧
      new.DueDateStr = "2025-03-01T08:30:00+02:00") ∧
    (∃ updated db1 new,
      TodoService.UpdateTodo exampleTable 200 "t1" (dueOnly "2024-01-15T9:00:00Z")
        = (.ok updated, db1) ∧
      TodoService.GetTodoByID db1 "t1" = .ok new ∧
      new.DueDate = timeParse "2024-01-15T9:00:00Z" ∧
      new.DueDateStr = "2024-01-15T09:00:00Z") ∧
    (∃ updated db1 new,
      TodoService.UpdateTodo exampleTable 200 "t1" completeOnly = (.ok updated, db1) ∧
      TodoService.GetTodoByID db1 "t1" = .ok new ∧
      new.DueDate = timeParse "2024-01-15T10:00:00Z" ∧
      new.DueDateStr = "2024-01-15T10:00:00Z") :=
  ⟨(updateTodo_due_date_three_valued exampleTable 200 "t1" (dueOnly "") exampleRow.scan rfl).1
      rfl,
   (updateTodo_due_date_three_valued exampleTable 200 "t1"
      (dueOnly "2025-03-01T08:30:00+02:00") exampleRow.scan rfl).2.1 _ _ rfl rfl,
   (updateTodo_due_date_three_valued exampleTable 200 "t1"
      (dueOnly "2024-01-15T9:00:00Z") exampleRow.scan rfl).2.1 _ _ rfl rfl,
   (updateTodo_due_date_three_valued exampleTable 200 "t1" completeOnly exampleRow.scan
      rfl).2.2 rfl⟩

/-- C4 (the code at a failing input): `NewTodo` reads the clock twice, so with
readings 100 and 101 the entity that `CreateTodo` returns has
`created_at = 100` and `updated_at = 101`, which differ. -/
theorem createTodo_timestamps_from_two_readings :
    ∃ todo db1, TodoService.CreateTodo [] "t2" 100 101 plainCreate = (.ok todo, db1) ∧
      todo.CreatedAt = 100 ∧ todo.UpdatedAt = 101 ∧ todo.CreatedAt ≠ todo.UpdatedAt :=
  ⟨_, _, rfl, rfl, rfl, by decide⟩

theorem create_fresh (db : Table) (todo : Todo) (hfresh : ∀ r ∈ db, r.id ≠ todo.ID) :
    TodoRepository.Create db todo = (.ok (), db ++ [todo.toRow]) := by
  unfold TodoRepository.Create
  have h : db.any (fun r => r.id == todo.ID) = false := by
    rw [Bool.eq_false_iff]
    intro hany
    obtain ⟨r, hr, heq⟩ := List.any_eq_true.1 hany
    exact hfresh r hr (by simpa using heq)
  rw [h]
  rfl

theorem newTodo_ok (newId : String) (now1 now2 : Nat) (create : TodoCreate)
    (hdue : create.DueDate = "" ∨ ∃ d, timeParse create.DueDate = some d) :
    ∃ todo, NewTodo newId now1 now2 create = .ok todo ∧
      todo.ID = newId ∧ todo.Title = create.Title ∧ todo.Description = create.Description ∧
      todo.Completed = false ∧ todo.Priority = create.Priority ∧
      todo.CreatedAt = now1 ∧ todo.UpdatedAt = now2 ∧
      todo.DueDate = (if create.DueDate = "" then none else timeParse create.DueDate) ∧
      todo.DueDateStr = create.DueDate := by
  unfold NewTodo
  by_cases he : create.DueDate = ""
  · simp [he]
  · rcases hdue with h | ⟨d, hd⟩
    · exact absurd h he
    · simp [he, hd]

/-- C5: a creation input with a non-empty title and a due_date that is empty
or parses, against a store with no row under the generated id, is accepted.
The returned entity is not completed and carries the input's title,
description and priority, the generated id and the two clock readings, and the
table after the call is the old one followed by one row holding exactly the
entity's id, title, description, completed, priority, due date and
timestamps. -/
theorem createTodo_succeeds_and_persists (db : Table) (newId : String) (now1 now2 : Nat)
    (create : TodoCreate) (htitle : create.Title ≠ "")
    (hdue : create.DueDate = "" ∨ ∃ d, timeParse create.DueDate = some d)
    (hfresh : ∀ r ∈ db, r.id ≠ newId) :
    ∃ todo row, TodoService.CreateTodo db newId now1 now2 create = (.ok todo, db ++ [row]) ∧
      todo.Completed = false ∧ todo.Title = create.Title ∧
      todo.Description = create.Description ∧ todo.Priority = create.Priority ∧
      todo.ID = newId ∧ todo.CreatedAt = now1 ∧ todo.UpdatedAt = now2 ∧
      todo.DueDate = (if create.DueDate = "" then none else timeParse create.DueDate) ∧
      row.id = todo.ID ∧ row.title = todo.Title ∧ row.description = todo.Description ∧
      row.completed = todo.Completed ∧ row.priority = todo.Priority ∧
      row.due_date = todo.DueDate ∧ row.created_at = todo.CreatedAt ∧
      row.updated_at = todo.UpdatedAt := by
  obtain ⟨todo, hnew, h1, h2, h3, h4, h5, h6, h7, h8, -⟩ := newTodo_ok newId now1 now2 create hdue
  refine ⟨todo, todo.toRow, ?_, h4, h2, h3, h5, h1, h6, h7, h8, rfl, rfl, rfl, rfl, rfl, rfl,
    rfl, rfl⟩
  unfold TodoService.CreateTodo
  rw [if_neg htitle, hnew]
  simp only
  rw [create_fresh db todo (by rw [h1]; exact hfresh)]

/-- Witness of C5: titled inputs due "2024-01-15T10:00:00Z" and, with a
one-digit hour, "2024-01-15T9:00:00Z", each created under the fresh id "t2" on
the one-row table. -/
theorem createTodo_succeeds_and_persists_witness :
    (∃ todo row,
      TodoService.CreateTodo exampleTable "t2" 300 301
          { plainCreate with DueDate := "2024-01-15T10:00:00Z" }
        = (.ok todo, exampleTable ++ [row]) ∧
      todo.Completed = false ∧ todo.Title = "buy milk" ∧ todo.Description = "" ∧
      todo.Priority = 0 ∧ todo.ID = "t2" ∧ todo.CreatedAt = 300 ∧ todo.UpdatedAt = 301 ∧
      todo.DueDate = timeParse "2024-01-15T10:00:00Z" ∧
      row.id = todo.ID ∧ row.title = todo.Title ∧ row.description = todo.Description ∧
      row.completed = todo.Completed ∧ row.priority = todo.Priority ∧
      row.due_date = todo.DueDate ∧ row.created_at = todo.CreatedAt ∧
      row.updated_at = todo.UpdatedAt) ∧
    (∃ todo row,
      TodoService.CreateTodo exampleTable "t2" 300 301
          { plainCreate with DueDate := "2024-01-15T9:00:00Z" }
        = (.ok todo, exampleTable ++ [row]) ∧
      todo.Completed = false ∧ todo.Title = "buy milk" ∧ todo.Description = "" ∧
      todo.Priority = 0 ∧ todo.ID = "t2" ∧ todo.CreatedAt = 300 ∧ todo.UpdatedAt = 301 ∧
      todo.DueDate = timeParse "2024-01-15T9:00:00Z" ∧
      row.id = todo.ID ∧ row.title = todo.Title ∧ row.description = todo.Description ∧
      row.completed = todo.Completed ∧ row.priority = todo.Priority ∧
      row.due_date = todo.DueDate ∧ row.created_at = todo.CreatedAt ∧
      row.updated_at = todo.UpdatedAt) :=
  ⟨createTodo_succeeds_and_persists exampleTable "t2" 300 301
      { plainCreate with DueDate := "2024-01-15T10:00:00Z" } (by decide) (Or.inr ⟨_, rfl⟩)
      (by decide),
   createTodo_succeeds_and_persists exampleTable "t2" 300 301
      { plainCreate with DueDate := "2024-01-15T9:00:00Z" } (by decide) (Or.inr ⟨_, rfl⟩)
      (by decide)⟩

/-! ## Handler status codes -/

theorem error_wrap_update_ne_notFound (e : GoError) :
    (GoError.wrap "failed to update todo: " e).Error ≠ "todo not found" := by
  intro h
  have h1 := congrArg (fun s : String => s.data.head?) h
  simp [GoError.Error, String.data_append] at h1

theorem find_none_of_fresh (db : Table) (id : String) (h : ∀ r ∈ db, r.id ≠ id) :
    db.find? (fun r => r.id == id) = none := by
  rw [List.find?_eq_none]
  intro r hr
  simpa using h r hr

theorem find_some_of_mem (db : Table) (id : String) (h : ∃ r ∈ db, r.id = id) :
    ∃ r, db.find? (fun r => r.id == id) = some r := by
  cases hf : db.find? (fun r => r.id == id) with
  | some r => exact ⟨r, rfl⟩
  | none =>
    rw [List.find?_eq_none] at hf
    obtain ⟨r, hr, hid⟩ := h
    exact absurd (by simpa using hid) (hf r hr)

/-- Counterexample to C6 as stated: `CreateTodo` with an empty title is
rejected by the service with the validation error "title is required", and the
handler answers with status 500, not 400. -/
theorem validation_error_not_answered_400 :
    (TodoService.CreateTodo [] "t2" 100 101 { plainCreate with Title := "" }).1
      = .error errTitleRequired ∧
    errTitleRequired.isValidation = true ∧
    (TodoHandler.CreateTodo [] "t2" 100 101 (some { plainCreate with Title := "" })).1.status
      = 500 ∧
    (TodoHandler.CreateTodo [] "t2" 100 101 (some { plainCreate with Title := "" })).1.status
      ≠ StatusBadRequest := by
  refine ⟨rfl, by decide, rfl, by decide⟩

/-- C6 as amended: in each of the three validation rejections of the service
(`CreateTodo` with an empty title, `CreateTodo` with a due_date that does not
parse, `UpdateTodo` of an existing id with a due_date that does not parse) the
handler answers with status 500 and leaves the store as it was, and the
handlers answer with status 400 exactly when the request body is rejected. -/
theorem validation_errors_answered_500 :
    (∀ (db : Table) (newId : String) (now1 now2 : Nat) (create : TodoCreate),
      create.Title = "" →
      ∃ err, TodoService.CreateTodo db newId now1 now2 create = (.error err, db) ∧
        err.isValidation = true ∧
        TodoHandler.CreateTodo db newId now1 now2 (some create)
          = (SendError StatusInternalServerError err.Error, db)) ∧
    (∀ (db : Table) (newId : String) (now1 now2 : Nat) (create : TodoCreate),
      create.Title ≠ "" → create.DueDate ≠ "" → timeParse create.DueDate = none →
      ∃ err, TodoService.CreateTodo db newId now1 now2 create = (.error err, db) ∧
        err.isValidation = true ∧
        TodoHandler.CreateTodo db newId now1 now2 (some create)
          = (SendError StatusInternalServerError err.Error, db)) ∧
    (∀ (db : Table) (now : Nat) (id : String) (update : TodoUpdate) (old : Todo) (s : String),
      TodoService.GetTodoByID db id = .ok old →
      update.DueDate = some s → s ≠ "" → timeParse s = none →
      ∃ err, TodoService.UpdateTodo db now id update = (.error err, db) ∧
        err.isValidation = true ∧
        TodoHandler.UpdateTodo db now id (some update)
          = (SendError StatusInternalServerError err.Error, db)) ∧
    (∀ (db : Table) (newId : String) (now1 now2 : Nat) (input : Option TodoCreate),
      (TodoHandler.CreateTodo db newId now1 now2 input).1.status = StatusBadRequest ↔
        input = none) ∧
    (∀ (db : Table) (now : Nat) (id : String) (input : Option TodoUpdate),
      (TodoHandler.UpdateTodo db now id input).1.status = StatusBadRequest ↔
        input = none) := by
  refine ⟨?_, ?_, ?_, ?_, ?_⟩
  · intro db newId now1 now2 create htitle
    refine ⟨errTitleRequired, ?_, by decide, ?_⟩
    · unfold TodoService.CreateTodo
      rw [if_pos htitle]
    · unfold TodoHandler.CreateTodo TodoService.CreateTodo
      simp only [if_pos htitle]
  · intro db newId now1 now2 create htitle hdue hparse
    have hnew : NewTodo newId now1 now2 create = .error (.parse create.DueDate) := by
      unfold NewTodo
      simp [hdue, hparse]
    refine ⟨.wrap "failed to create todo model: " (.parse create.DueDate), ?_, ?_, ?_⟩
    · unfold TodoService.CreateTodo
      rw [if_neg htitle, hnew]
    · simp [GoError.isValidation, GoError.rootCause]
    · unfold TodoHandler.CreateTodo TodoService.CreateTodo
      simp only [if_neg htitle, hnew]
  · intro db now id update old s hrow hdue hne hparse
    obtain ⟨r, hfind, -⟩ := (getTodoByID_ok_iff db id old).1 hrow
    have hupd : TodoService.UpdateTodo db now id update =
        (.error (.wrap "failed to update todo: " (.wrap "invalid due date format: " (.parse s))),
          db) := by
      unfold TodoService.UpdateTodo
      rw [getByID_eq, hfind]
      simp only [Option.map_some']
      unfold TodoRepository.Update
      rw [getByID_eq, hfind]
      simp only [Option.map_some']
      unfold TodoRepository.applyDueDate
      rw [hdue]
      simp only [hne, if_false, hparse]
    refine ⟨_, hupd, ?_, ?_⟩
    · simp [GoError.isValidation, GoError.rootCause]
    · unfold TodoHandler.UpdateTodo
      simp only [hupd]
      unfold TodoHandler.errorStatus
      rw [if_neg (error_wrap_update_ne_notFound _)]
  · intro db newId now1 now2 input
    cases input with
    | none => simp [TodoHandler.CreateTodo, SendError]
    | some create =>
      unfold TodoHandler.CreateTodo
      simp only
      rcases h : TodoService.CreateTodo db newId now1 now2 create with ⟨res, db1⟩
      cases res <;> simp [SendError, StatusBadRequest, StatusInternalServerError, StatusCreated]
  · intro db now id input
    cases input with
    | none => simp [TodoHandler.UpdateTodo, SendError]
    | some update =>
      unfold TodoHandler.UpdateTodo
      simp only
      rcases h : TodoService.UpdateTodo db now id update with ⟨res, db1⟩
      cases res with
      | error err =>
        simp only [SendError, TodoHandler.errorStatus]
        split <;> simp [StatusBadRequest, StatusInternalServerError, StatusNotFound]
      | ok t => simp [StatusBadRequest, StatusOK]

/-- Witness of C6: on the one-row table, an update of "t1" and a creation whose
due_date is "tomorrow", which `time.Parse` rejects, and a creation with an
empty title; each is answered with status 500 and leaves the table as it was. -/
theorem validation_errors_answered_500_witness :
    (∃ err, TodoService.CreateTodo exampleTable "t2" 300 301 { plainCreate with Title := "" }
        = (.error err, exampleTable) ∧
      err.isValidation = true ∧
      TodoHandler.CreateTodo exampleTable "t2" 300 301 (some { plainCreate with Title := "" })
        = (SendError StatusInternalServerError err.Error, exampleTable)) ∧
    (∃ err, TodoService.CreateTodo exampleTable "t2" 300 301
          { plainCreate with DueDate := "tomorrow" } = (.error err, exampleTable) ∧
      err.isValidation = true ∧
      TodoHandler.CreateTodo exampleTable "t2" 300 301
          (some { plainCreate with DueDate := "tomorrow" })
        = (SendError StatusInternalServerError err.Error, exampleTable)) ∧
    (∃ err, TodoService.UpdateTodo exampleTable 200 "t1" badDueUpdate
        = (.error err, exampleTable) ∧
      err.isValidation = true ∧
      TodoHandler.UpdateTodo exampleTable 200 "t1" (some badDueUpdate)
        = (SendError StatusInternalServerError err.Error, exampleTable)) :=
  ⟨validation_errors_answered_500.1 exampleTable "t2" 300 301
      { plainCreate with Title := "" } rfl,
   validation_errors_answered_500.2.1 exampleTable "t2" 300 301
      { plainCreate with DueDate := "tomorrow" } (by decide) (by decide) (by decide),
   validation_errors_answered_500.2.2.1 exampleTable 200 "t1" badDueUpdate exampleRow.scan
      "tomorrow" rfl rfl (by decide) (by decide)⟩

/-- C7: for an id with no row, `GetTodoByID`, `UpdateTodo` (whatever the
payload) and `DeleteTodo` each fail with the not-found error, which is not a
validation error, the store is returned unchanged, and each handler answers
with status 404 and the message "todo not found". -/
theorem missing_id_is_not_found (db : Table) (now : Nat) (id : String) (update : TodoUpdate)
    (hmissing : ∀ r ∈ db, r.id ≠ id) :
    TodoService.GetTodoByID db id = .error errNotFound ∧
    TodoService.UpdateTodo db now id update = (.error errNotFound, db) ∧
    TodoService.DeleteTodo db id = (.error errNotFound, db) ∧
    errNotFound.isValidation = false ∧
    TodoHandler.GetTodoByID db id = SendError StatusNotFound "todo not found" ∧
    TodoHandler.UpdateTodo db now id (some update)
      = (SendError StatusNotFound "todo not found", db) ∧
    TodoHandler.DeleteTodo db id = (SendError StatusNotFound "todo not found", db) ∧
    StatusNotFound = 404 := by
  have hfind := find_none_of_fresh db id hmissing
  have hget : TodoService.GetTodoByID db id = .error errNotFound :=
    getTodoByID_none db id hfind
  have hupd : TodoService.UpdateTodo db now id update = (.error errNotFound, db) := by
    unfold TodoService.UpdateTodo
    rw [getByID_eq, hfind]
    rfl
  have hdel : TodoService.DeleteTodo db id = (.error errNotFound, db) := by
    unfold TodoService.DeleteTodo
    rw [getByID_eq, hfind]
    rfl
  refine ⟨hget, hupd, hdel, by decide, ?_, ?_, ?_, rfl⟩
  · unfold TodoHandler.GetTodoByID
    rw [hget]
    rfl
  · unfold TodoHandler.UpdateTodo
    simp only [hupd]
    rfl
  · unfold TodoHandler.DeleteTodo
    simp only [hdel]
    rfl

/-- Witness of C7: the id "t9" on the one-row table, with a payload whose
due_date does not parse. -/
theorem missing_id_is_not_found_witness :
    TodoService.GetTodoByID exampleTable "t9" = .error errNotFound ∧
    TodoService.UpdateTodo exampleTable 200 "t9" (dueOnly "tomorrow")
      = (.error errNotFound, exampleTable) ∧
    TodoService.DeleteTodo exampleTable "t9" = (.error errNotFound, exampleTable) ∧
    errNotFound.isValidation = false ∧
    TodoHandler.GetTodoByID exampleTable "t9" = SendError StatusNotFound "todo not found" ∧
    TodoHandler.UpdateTodo exampleTable 200 "t9" (some (dueOnly "tomorrow"))
      = (SendError StatusNotFound "todo not found", exampleTable) ∧
    TodoHandler.DeleteTodo exampleTable "t9"
      = (SendError StatusNotFound "todo not found", exampleTable) ∧
    StatusNotFound = 404 :=
  missing_id_is_not_found exampleTable 200 "t9" (dueOnly "tomorrow") (by decide)

/-- C8: `DeleteTodo` of an id that has a row succeeds and leaves exactly the
rows of the other ids.  Afterwards `GetTodoByID` and a second `DeleteTodo` of
the same id fail with the not-found error, while the repository-level
`Delete` of that id, which now has no row, reports success and leaves the
table as it is. -/
theorem deleteTodo_removes_row (db : Table) (id : String) (hrow : ∃ r ∈ db, r.id = id) :
    ∃ db1, TodoService.DeleteTodo db id = (.ok (), db1) ∧
      db1 = db.filter (fun r => r.id != id) ∧
      (∀ r ∈ db1, r.id ≠ id) ∧
      TodoService.GetTodoByID db1 id = .error errNotFound ∧
      TodoService.DeleteTodo db1 id = (.error errNotFound, db1) ∧
      TodoRepository.Delete db1 id = (.ok (), db1) := by
  obtain ⟨r, hfind⟩ := find_some_of_mem db id hrow
  have hgone : ∀ r ∈ db.filter (fun r => r.id != id), r.id ≠ id := by
    intro r hr
    simpa using (List.mem_filter.1 hr).2
  have hfind1 := find_none_of_fresh _ id hgone
  refine ⟨db.filter (fun r => r.id != id), ?_, rfl, hgone, getTodoByID_none _ id hfind1, ?_, ?_⟩
  · unfold TodoService.DeleteTodo
    rw [getByID_eq, hfind]
    rfl
  · unfold TodoService.DeleteTodo
    rw [getByID_eq, hfind1]
    rfl
  · unfold TodoRepository.Delete
    rw [List.filter_filter]
    simp

/-- Witness of C8: deleting "t1" from the one-row table. -/
theorem deleteTodo_removes_row_witness :
    ∃ db1, TodoService.DeleteTodo exampleTable "t1" = (.ok (), db1) ∧
      db1 = exampleTable.filter (fun r => r.id != "t1") ∧
      (∀ r ∈ db1, r.id ≠ "t1") ∧
      TodoService.GetTodoByID db1 "t1" = .error errNotFound ∧
      TodoService.DeleteTodo db1 "t1" = (.error errNotFound, db1) ∧
      TodoRepository.Delete db1 "t1" = (.ok (), db1) :=
  deleteTodo_removes_row exampleTable "t1" ⟨exampleRow, by decide, rfl⟩

/-! ## Listing -/

theorem orderedBefore_total : IsTotal Row orderedBefore :=
  ⟨fun a b => by
    unfold orderedBefore
    omega⟩

theorem orderedBefore_trans : IsTrans Row orderedBefore :=
  ⟨fun a b c => by
    unfold orderedBefore
    omega⟩

theorem sorted_insertionSort_rows (rows : List Row) :
    (rows.insertionSort orderedBefore).Pairwise orderedBefore := by
  haveI := orderedBefore_total
  haveI := orderedBefore_trans
  exact List.sorted_insertionSort orderedBefore rows

/-- C9: `GetAllTodos` never fails.  With a filter value `b` it returns the
entities scanned from a rearrangement of exactly the stored rows whose
completed equals `b`, and with no filter from a rearrangement of all stored
rows, each row once; in both cases the rows stand in the order priority
descending and, for equal priorities, created_at descending.  When no row
matches the filter the result is the empty list with status 200 at the
handler, not an error. -/
theorem getAllTodos_filtered_and_ordered (db : Table) :
    (∀ b : Bool, ∃ rows : List Row,
      TodoService.GetAllTodos db (some b) = .ok (rows.map Row.scan) ∧
      rows.Perm (db.filter (fun r => r.completed == b)) ∧
      rows.Pairwise (fun x y => y.priority < x.priority ∨
        (x.priority = y.priority ∧ y.created_at ≤ x.created_at))) ∧
    (∃ rows : List Row,
      TodoService.GetAllTodos db none = .ok (rows.map Row.scan) ∧
      rows.Perm db ∧
      rows.Pairwise (fun x y => y.priority < x.priority ∨
        (x.priority = y.priority ∧ y.created_at ≤ x.created_at))) ∧
    (∀ b : Bool, (∀ r ∈ db, r.completed ≠ b) →
      TodoService.GetAllTodos db (some b) = .ok [] ∧
      TodoHandler.GetAllTodos db (some b) = { status := 200, body := .todos [] }) := by
  refine ⟨?_, ?_, ?_⟩
  · intro b
    exact ⟨_, rfl, List.perm_insertionSort _ _, sorted_insertionSort_rows _⟩
  · exact ⟨_, rfl, List.perm_insertionSort _ _, sorted_insertionSort_rows _⟩
  · intro b hnone
    have hf : db.filter (fun r => r.completed == b) = [] := by
      rw [List.filter_eq_nil_iff]
      intro r hr
      simpa using hnone r hr
    have hget : TodoService.GetAllTodos db (some b) = .ok [] := by
      unfold TodoService.GetAllTodos TodoRepository.GetAll
      simp only [hf]
      rfl
    refine ⟨hget, ?_⟩
    unfold TodoHandler.GetAllTodos
    rw [hget]
    rfl

/-- Witness of C9: A (priority 1), B (priority 5) and C (priority 3) created
in that order with A and B completed; the list filtered on completed = true is
B then A, and the general statement holds of that table. -/
theorem getAllTodos_filtered_and_ordered_witness :
    (TodoService.GetAllTodos abcTable (some true)).toOption.map (List.map Todo.ID)
      = some ["B", "A"] ∧
    (TodoService.GetAllTodos abcTable (some false)).toOption.map (List.map Todo.ID)
      = some ["C"] ∧
    (TodoService.GetAllTodos abcTable none).toOption.map (List.map Todo.ID)
      = some ["B", "C", "A"] ∧
    ∃ rows : List Row,
      TodoService.GetAllTodos abcTable (some true) = .ok (rows.map Row.scan) ∧
      rows.Perm (abcTable.filter (fun r => r.completed == true)) ∧
      rows.Pairwise (fun x y => y.priority < x.priority ∨
        (x.priority = y.priority ∧ y.created_at ≤ x.created_at)) :=
  ⟨by decide, by decide, by decide, (getAllTodos_filtered_and_ordered abcTable).1 true⟩

/-! ## Reading back what `Format` prints -/

theorem digitChar_isDigit (n : Nat) : isDigit (digitChar n) = true := by
  unfold digitChar
  have h : n % 10 < 10 := Nat.mod_lt _ (by decide)
  interval_cases n % 10 <;> decide

theorem digitChar_value (n : Nat) : (digitChar n).toNat - 48 = n % 10 := by
  unfold digitChar
  have h : n % 10 < 10 := Nat.mod_lt _ (by decide)
  interval_cases n % 10 <;> decide

theorem parseUint_of_digits (cs : List Char) (lo hi v : Nat)
    (hall : cs.all isDigit = true)
    (hval : cs.foldl (fun acc c => acc * 10 + (c.toNat - 48)) 0 = v)
    (hlo : lo ≤ v) (hhi : v ≤ hi) : parseUint cs lo hi = some v := by
  unfold parseUint
  rw [hall, if_pos rfl]
  simp only [hval]
  have hr : (decide (v < lo) || decide (hi < v)) = false := by
    simp only [Bool.or_eq_false_iff, decide_eq_false_iff_not]
    omega
  rw [hr]
  rfl

theorem parseUint_pad2 (n lo hi : Nat) (hlo : lo ≤ n) (hhi : n ≤ hi) (h : n < 100) :
    parseUint (pad2 n) lo hi = some n := by
  apply parseUint_of_digits _ _ _ _ _ _ hlo hhi
  · show (isDigit (digitChar (n / 10)) && (isDigit (digitChar n) && true)) = true
    rw [digitChar_isDigit, digitChar_isDigit]
    rfl
  · show (0 * 10 + ((digitChar (n / 10)).toNat - 48)) * 10 + ((digitChar n).toNat - 48) = n
    rw [digitChar_value, digitChar_value]
    omega

theorem parseUint_pad4 (n lo hi : Nat) (hlo : lo ≤ n) (hhi : n ≤ hi) (h : n < 10000) :
    parseUint (pad4 n) lo hi = some n := by
  apply parseUint_of_digits _ _ _ _ _ _ hlo hhi
  · show (isDigit (digitChar (n / 1000)) && (isDigit (digitChar (n / 100)) &&
      (isDigit (digitChar (n / 10)) && (isDigit (digitChar n) && true)))) = true
    rw [digitChar_isDigit, digitChar_isDigit, digitChar_isDigit, digitChar_isDigit]
    rfl
  · show (((0 * 10 + ((digitChar (n / 1000)).toNat - 48)) * 10
        + ((digitChar (n / 100)).toNat - 48)) * 10
        + ((digitChar (n / 10)).toNat - 48)) * 10 + ((digitChar n).toNat - 48) = n
    rw [digitChar_value, digitChar_value, digitChar_value, digitChar_value]
    omega


theorem parseFraction_formatZone (t : DateTime) :
    parseFraction (formatZone t) = (0, formatZone t) := by
  unfold formatZone
  split
  · rfl
  · cases t.zoneNeg <;> rfl

theorem parseZone_formatZone (t : DateTime) (hzh : t.zoneHour ≤ 23) (hzm : t.zoneMin ≤ 59) :
    parseZone (formatZone t) =
      some (t.zoneNeg && !(t.zoneHour == 0 && t.zoneMin == 0), t.zoneHour, t.zoneMin) := by
  unfold formatZone
  by_cases hz : t.zoneHour = 0 ∧ t.zoneMin = 0
  · rw [if_pos hz]
    obtain ⟨h1, h2⟩ := hz
    rw [h1, h2]
    simp [parseZone]
  · rw [if_neg hz]
    have hne : (!(t.zoneHour == 0 && t.zoneMin == 0)) = true := by
      by_contra hc
      simp at hc
      exact hz hc
    rw [hne, Bool.and_true]
    have hh := parseUint_pad2 t.zoneHour 0 23 (Nat.zero_le _) hzh (by omega)
    have hm := parseUint_pad2 t.zoneMin 0 59 (Nat.zero_le _) hzm (by omega)
    cases hneg : t.zoneNeg
    · unfold parseZone
      rw [if_neg (by intro h; exact absurd (congrArg List.length h) (by simp [pad2]))]
      rw [if_neg (by intro h; exact h rfl)]
      show (match parseUint (pad2 t.zoneHour) 0 23, parseUint (pad2 t.zoneMin) 0 59 with
        | some hr, some mm => _
        | _, _ => none) = _
      rw [hh, hm]
      rfl
    · unfold parseZone
      rw [if_neg (by intro h; exact absurd (congrArg List.length h) (by simp [pad2]))]
      rw [if_neg (by intro h; exact h rfl)]
      show (match parseUint (pad2 t.zoneHour) 0 23, parseUint (pad2 t.zoneMin) 0 59 with
        | some hr, some mm => _
        | _, _ => none) = _
      rw [hh, hm]
      rfl


theorem daysIn_le (month year : Nat) : daysIn month year ≤ 31 := by
  unfold daysIn
  split
  · split <;> omega
  · split <;> omega

/-- Reading back the text that `Format` prints gives the same civil fields and
zone, without nanoseconds. -/
theorem parseRFC3339_format (t : DateTime)
    (hy : t.year ≤ 9999) (hm1 : 1 ≤ t.month) (hm2 : t.month ≤ 12)
    (hd1 : 1 ≤ t.day) (hd2 : t.day ≤ daysIn t.month t.year)
    (hh : t.hour ≤ 23) (hmi : t.minute ≤ 59) (hs : t.second ≤ 59)
    (hzh : t.zoneHour ≤ 23) (hzm : t.zoneMin ≤ 59) :
    parseRFC3339 (formatRFC3339 t) =
      some { year := t.year, month := t.month, day := t.day, hour := t.hour,
             minute := t.minute, second := t.second, nsec := 0,
             zoneNeg := t.zoneNeg && !(t.zoneHour == 0 && t.zoneMin == 0),
             zoneHour := t.zoneHour, zoneMin := t.zoneMin } := by
  have hd3 := daysIn_le t.month t.year
  have p1 := parseUint_pad4 t.year 0 9999 (Nat.zero_le _) hy (by omega)
  have p2 := parseUint_pad2 t.month 1 12 hm1 hm2 (by omega)
  have p3 := parseUint_pad2 t.day 1 (daysIn t.month t.year) hd1 hd2 (by omega)
  have p4 := parseUint_pad2 t.hour 0 23 (Nat.zero_le _) hh (by omega)
  have p5 := parseUint_pad2 t.minute 0 59 (Nat.zero_le _) hmi (by omega)
  have p6 := parseUint_pad2 t.second 0 59 (Nat.zero_le _) hs (by omega)
  have hlen : ¬ (formatRFC3339 t).toList.length < 19 := by
    simp [formatRFC3339, pad4, pad2]
  unfold parseRFC3339
  simp only [if_neg hlen]
  show (match parseUint (pad4 t.year) 0 9999, parseUint (pad2 t.month) 1 12 with
    | some year, some month => _
    | _, _ => none) = _
  rw [p1, p2]
  show (match parseUint (pad2 t.day) 1 (daysIn t.month t.year), parseUint (pad2 t.hour) 0 23,
      parseUint (pad2 t.minute) 0 59, parseUint (pad2 t.second) 0 59 with
    | some day, some hour, some minute, some second => _
    | _, _, _, _ => none) = _
  rw [p3, p4, p5, p6]
  show (if (decide (some '-' = some '-') && decide (some '-' = some '-')
      && decide (some 'T' = some 'T') && decide (some ':' = some ':')
      && decide (some ':' = some ':')) = true then
      (match parseZone (parseFraction (formatZone t)).2 with
        | some (neg, hr, mm) => _
        | none => none)
    else none) = _
  rw [if_pos (by decide), parseFraction_formatZone, parseZone_formatZone t hzh hzm]
  have hf : (parseFraction (List.drop 19 (formatRFC3339 t).toList)).1 = 0 := by
    show (parseFraction (formatZone t)).1 = 0
    rw [parseFraction_formatZone]
  simp only [hf]
  cases t.zoneNeg <;> cases (t.zoneHour == 0 && t.zoneMin == 0) <;> rfl


/-- `time.Parse` reads the text that `Format` prints through its fast path. -/
theorem timeParse_format (t : DateTime)
    (hy : t.year ≤ 9999) (hm1 : 1 ≤ t.month) (hm2 : t.month ≤ 12)
    (hd1 : 1 ≤ t.day) (hd2 : t.day ≤ daysIn t.month t.year)
    (hh : t.hour ≤ 23) (hmi : t.minute ≤ 59) (hs : t.second ≤ 59)
    (hzh : t.zoneHour ≤ 23) (hzm : t.zoneMin ≤ 59) :
    timeParse (formatRFC3339 t) =
      some { year := t.year, month := t.month, day := t.day, hour := t.hour,
             minute := t.minute, second := t.second, nsec := 0,
             zoneNeg := t.zoneNeg && !(t.zoneHour == 0 && t.zoneMin == 0),
             zoneHour := t.zoneHour, zoneMin := t.zoneMin } := by
  unfold timeParse
  rw [parseRFC3339_format t hy hm1 hm2 hd1 hd2 hh hmi hs hzh hzm]

theorem formatRFC3339_reparsed (t : DateTime) :
    formatRFC3339
      { year := t.year, month := t.month, day := t.day, hour := t.hour,
        minute := t.minute, second := t.second, nsec := 0,
        zoneNeg := t.zoneNeg && !(t.zoneHour == 0 && t.zoneMin == 0),
        zoneHour := t.zoneHour, zoneMin := t.zoneMin } = formatRFC3339 t := by
  unfold formatRFC3339 formatZone
  simp only
  by_cases hz : t.zoneHour = 0 ∧ t.zoneMin = 0
  · rw [if_pos hz, if_pos hz]
  · rw [if_neg hz, if_neg hz]
    have hne : (!(t.zoneHour == 0 && t.zoneMin == 0)) = true := by
      by_contra hc
      simp at hc
      exact hz hc
    rw [hne, Bool.and_true]

/-- Creating a todo whose due_date text parses and reading it back under the
generated id. -/
theorem createTodo_then_get (db : Table) (newId : String) (now1 now2 : Nat)
    (create : TodoCreate) (d : DateTime) (htitle : create.Title ≠ "")
    (hfresh : ∀ r ∈ db, r.id ≠ newId) (hparse : timeParse create.DueDate = some d) :
    ∃ todo db1 fetched,
      TodoService.CreateTodo db newId now1 now2 create = (.ok todo, db1) ∧
      TodoService.GetTodoByID db1 newId = .ok fetched ∧
      fetched.DueDate = some d ∧ fetched.DueDateStr = formatRFC3339 d := by
  have hne : create.DueDate ≠ "" := by
    intro he
    rw [he, timeParse_empty] at hparse
    exact Option.noConfusion hparse
  obtain ⟨todo, hnew, h1, -, -, -, -, -, -, h8, -⟩ :=
    newTodo_ok newId now1 now2 create (Or.inr ⟨d, hparse⟩)
  rw [if_neg hne, hparse] at h8
  have hcreate : TodoService.CreateTodo db newId now1 now2 create
      = (.ok todo, db ++ [todo.toRow]) := by
    unfold TodoService.CreateTodo
    rw [if_neg htitle, hnew]
    simp only
    rw [create_fresh db todo (by rw [h1]; exact hfresh)]
  have hfind : (db ++ [todo.toRow]).find? (fun r => r.id == newId) = some todo.toRow := by
    rw [List.find?_append, find_none_of_fresh db newId hfresh]
    simp [Todo.toRow, h1]
  refine ⟨todo, _, todo.toRow.scan, hcreate, ?_, ?_, ?_⟩
  · rw [getTodoByID_ok_iff]
    exact ⟨_, hfind, rfl⟩
  · rw [(scan_fields todo.toRow).2.2.2.2.2.1]
    exact h8
  · rw [(scan_fields todo.toRow).2.2.2.2.2.2.2.2]
    show (Option.map formatRFC3339 todo.DueDate).getD "" = _
    rw [h8]
    rfl

/-- Counterexample to C10 as stated: the due_date texts
"2024-01-15T10:00:00.5Z" and "2024-01-15T10:00:00+00:00" are accepted by
`CreateTodo`, and the todo read back with `GetTodoByID` carries
"2024-01-15T10:00:00Z" in both cases, which is not the text supplied.  The same
happens to the texts only the general layout parser accepts:
"2024-01-15T9:00:00Z" is read back as "2024-01-15T09:00:00Z" and
"2024-01-15T10:00:00+00:60" as "2024-01-15T10:00:00+01:00". -/
theorem due_date_text_not_reproduced :
    (∃ todo db1 fetched,
      TodoService.CreateTodo [] "t2" 100 101
          { plainCreate with DueDate := "2024-01-15T10:00:00.5Z" } = (.ok todo, db1) ∧
      TodoService.GetTodoByID db1 "t2" = .ok fetched ∧
      fetched.DueDateStr = "2024-01-15T10:00:00Z" ∧
      fetched.DueDateStr ≠ "2024-01-15T10:00:00.5Z") ∧
    (∃ todo db1 fetched,
      TodoService.CreateTodo [] "t2" 100 101
          { plainCreate with DueDate := "2024-01-15T10:00:00+00:00" } = (.ok todo, db1) ∧
      TodoService.GetTodoByID db1 "t2" = .ok fetched ∧
      fetched.DueDateStr = "2024-01-15T10:00:00Z" ∧
      fetched.DueDateStr ≠ "2024-01-15T10:00:00+00:00") ∧
    (∃ todo db1 fetched,
      TodoService.CreateTodo [] "t2" 100 101
          { plainCreate with DueDate := "2024-01-15T9:00:00Z" } = (.ok todo, db1) ∧
      TodoService.GetTodoByID db1 "t2" = .ok fetched ∧
      fetched.DueDateStr = "2024-01-15T09:00:00Z" ∧
      fetched.DueDateStr ≠ "2024-01-15T9:00:00Z") ∧
    (∃ todo db1 fetched,
      TodoService.CreateTodo [] "t2" 100 101
          { plainCreate with DueDate := "2024-01-15T10:00:00+00:60" } = (.ok todo, db1) ∧
      TodoService.GetTodoByID db1 "t2" = .ok fetched ∧
      fetched.DueDateStr = "2024-01-15T10:00:00+01:00" ∧
      fetched.DueDateStr ≠ "2024-01-15T10:00:00+00:60") :=
  ⟨⟨_, _, _, rfl, rfl, rfl, by decide⟩, ⟨_, _, _, rfl, rfl, rfl, by decide⟩,
   ⟨_, _, _, rfl, rfl, rfl, by decide⟩, ⟨_, _, _, rfl, rfl, rfl, by decide⟩⟩

/-- C10 as amended: for a titled creation input under a fresh id, the due_date
text read back with `GetTodoByID` is the RFC 3339 rendering of the parsed due
date whenever `time.Parse` accepts the supplied text, and it is identical to
the supplied text whenever that text is itself the RFC 3339 rendering of a
date-time whose year is at most 9999, whose day exists in its month, whose
hour is at most 23, whose minute and second are at most 59, and whose zone
offset has at most 23 hours and at most 59 minutes, in which case the input is
accepted. -/
theorem due_date_text_round_trip (db : Table) (newId : String) (now1 now2 : Nat)
    (create : TodoCreate) (htitle : create.Title ≠ "") (hfresh : ∀ r ∈ db, r.id ≠ newId) :
    (∀ d : DateTime, timeParse create.DueDate = some d →
      ∃ todo db1 fetched,
        TodoService.CreateTodo db newId now1 now2 create = (.ok todo, db1) ∧
        TodoService.GetTodoByID db1 newId = .ok fetched ∧
        fetched.DueDateStr = formatRFC3339 d) ∧
    (∀ t : DateTime, t.year ≤ 9999 → 1 ≤ t.month → t.month ≤ 12 → 1 ≤ t.day →
      t.day ≤ daysIn t.month t.year → t.hour ≤ 23 → t.minute ≤ 59 → t.second ≤ 59 →
      t.zoneHour ≤ 23 → t.zoneMin ≤ 59 → create.DueDate = formatRFC3339 t →
      ∃ todo db1 fetched,
        TodoService.CreateTodo db newId now1 now2 create = (.ok todo, db1) ∧
        TodoService.GetTodoByID db1 newId = .ok fetched ∧
        fetched.DueDateStr = create.DueDate) := by
  constructor
  · intro d hparse
    obtain ⟨todo, db1, fetched, hc, hg, -, hs⟩ :=
      createTodo_then_get db newId now1 now2 create d htitle hfresh hparse
    exact ⟨todo, db1, fetched, hc, hg, hs⟩
  · intro t hy hm1 hm2 hd1 hd2 hh hmi hs hzh hzm htext
    have hparse := timeParse_format t hy hm1 hm2 hd1 hd2 hh hmi hs hzh hzm
    rw [← htext] at hparse
    obtain ⟨todo, db1, fetched, hc, hg, -, hstr⟩ :=
      createTodo_then_get db newId now1 now2 create _ htitle hfresh hparse
    refine ⟨todo, db1, fetched, hc, hg, ?_⟩
    rw [hstr, formatRFC3339_reparsed, htext]

/-- Witness of C10: the due_date text "2024-01-15T10:00:00Z", created under
the fresh id "t2" on the one-row table and read back. -/
theorem due_date_text_round_trip_witness :
    ∃ todo db1 fetched,
      TodoService.CreateTodo exampleTable "t2" 300 301
          { plainCreate with DueDate := "2024-01-15T10:00:00Z" } = (.ok todo, db1) ∧
      TodoService.GetTodoByID db1 "t2" = .ok fetched ∧
      fetched.DueDateStr = "2024-01-15T10:00:00Z" :=
  (due_date_text_round_trip exampleTable "t2" 300 301
      { plainCreate with DueDate := "2024-01-15T10:00:00Z" } (by decide) (by decide)).2
    { year := 2024, month := 1, day := 15, hour := 10, minute := 0, second := 0, nsec := 0,
      zoneNeg := false, zoneHour := 0, zoneMin := 0 }
    (by decide) (by decide) (by decide) (by decide) (by decide) (by decide) (by decide)
    (by decide) (by decide) (by decide) (by decide)

/-! ## Rejected updates -/

/-- An update of an existing id whose due_date text is not empty and does not
parse: the error returned and the store left behind. -/
theorem updateTodo_bad_due_date (db : Table) (now : Nat) (id : String) (update : TodoUpdate)
    (r : Row) (s : String) (hfind : db.find? (fun r => r.id == id) = some r)
    (hdue : update.DueDate = some s) (hne : s ≠ "") (hparse : timeParse s = none) :
    TodoService.UpdateTodo db now id update =
      (.error (.wrap "failed to update todo: " (.wrap "invalid due date format: " (.parse s))),
        db) := by
  unfold TodoService.UpdateTodo
  rw [getByID_eq, hfind]
  simp only [Option.map_some']
  unfold TodoRepository.Update
  rw [getByID_eq, hfind]
  simp only [Option.map_some']
  unfold TodoRepository.applyDueDate
  rw [hdue]
  simp only [hne, if_false, hparse]

/-- C11: `UpdateTodo` of an existing id with a due_date that is present, not
empty and does not parse fails with a validation error, the wrapped parse
error, and is atomic: the store returned is the store given, so the todo read
back afterwards is the one read before, with no other member of the payload
applied and updated_at not refreshed. -/
theorem updateTodo_bad_due_date_atomic (db : Table) (now : Nat) (id : String)
    (update : TodoUpdate) (old : Todo) (s : String)
    (hrow : TodoService.GetTodoByID db id = .ok old)
    (hdue : update.DueDate = some s) (hne : s ≠ "") (hparse : timeParse s = none) :
    ∃ err, TodoService.UpdateTodo db now id update = (.error err, db) ∧
      err.isValidation = true ∧
      err = .wrap "failed to update todo: " (.wrap "invalid due date format: " (.parse s)) ∧
      TodoService.GetTodoByID (TodoService.UpdateTodo db now id update).2 id = .ok old := by
  obtain ⟨r, hfind, -⟩ := (getTodoByID_ok_iff db id old).1 hrow
  have hupd := updateTodo_bad_due_date db now id update r s hfind hdue hne hparse
  refine ⟨_, hupd, ?_, rfl, ?_⟩
  · simp [GoError.isValidation, GoError.rootCause]
  · rw [hupd]
    exact hrow

/-- Witness of C11: on the one-row table, a payload that renames the todo,
completes it, raises its priority and carries the due_date "tomorrow". -/
theorem updateTodo_bad_due_date_atomic_witness :
    ∃ err, TodoService.UpdateTodo exampleTable 200 "t1" badDueUpdate
        = (.error err, exampleTable) ∧
      err.isValidation = true ∧
      err = .wrap "failed to update todo: "
        (.wrap "invalid due date format: " (.parse "tomorrow")) ∧
      TodoService.GetTodoByID (TodoService.UpdateTodo exampleTable 200 "t1" badDueUpdate).2 "t1"
        = .ok exampleRow.scan :=
  updateTodo_bad_due_date_atomic exampleTable 200 "t1" badDueUpdate exampleRow.scan "tomorrow"
    rfl rfl (by decide) (by decide)

/-! ## Invariants over sequences of calls -/

/-- C12 (the code at a failing input): creating a todo titled "buy milk" and
then updating it with a payload that supplies the empty title, at
non-decreasing clock readings, leaves a stored todo whose title is empty; both
calls succeed, and the same title is rejected by `CreateTodo`. -/
theorem title_emptied_by_update :
    (∃ todo db1, TodoService.CreateTodo [] "t1" 100 101 plainCreate = (.ok todo, db1) ∧
      ∃ updated db2, TodoService.UpdateTodo db1 102 "t1" emptyTitleUpdate = (.ok updated, db2) ∧
        updated.Title = "" ∧
        db2 = runCalls [] [.create "t1" 100 101 plainCreate, .update 102 "t1" emptyTitleUpdate]) ∧
    (∃ r ∈ runCalls [] [.create "t1" 100 101 plainCreate, .update 102 "t1" emptyTitleUpdate],
      r.title = "") ∧
    (TodoService.GetTodoByID
        (runCalls [] [.create "t1" 100 101 plainCreate, .update 102 "t1" emptyTitleUpdate])
        "t1").toOption.map Todo.Title = some "" ∧
    (TodoService.CreateTodo [] "t1" 100 101 { plainCreate with Title := "" }).1
      = .error errTitleRequired :=
  ⟨⟨_, _, rfl, _, _, rfl, rfl, rfl⟩, ⟨_, List.mem_singleton.2 rfl, rfl⟩, rfl, rfl⟩

theorem newTodo_stamps (newId : String) (now1 now2 : Nat) (create : TodoCreate) (todo : Todo)
    (h : NewTodo newId now1 now2 create = .ok todo) :
    todo.CreatedAt = now1 ∧ todo.UpdatedAt = now2 ∧ todo.Title = create.Title := by
  unfold NewTodo at h
  by_cases he : create.DueDate = ""
  · simp only [he, ne_eq, not_true_eq_false, if_false, Except.ok.injEq] at h
    subst h
    exact ⟨rfl, rfl, rfl⟩
  · simp only [ne_eq, he, not_false_eq_true, if_true] at h
    cases hp : timeParse create.DueDate with
    | none => simp [hp] at h
    | some d =>
      simp only [hp, Except.ok.injEq] at h
      subst h
      exact ⟨rfl, rfl, rfl⟩

/-- What `CreateTodo` can do to the store: nothing when it fails, one appended
row carrying the two clock readings and a non-empty title when it succeeds. -/
theorem createTodo_cases (db : Table) (newId : String) (now1 now2 : Nat)
    (create : TodoCreate) :
    (∃ err, TodoService.CreateTodo db newId now1 now2 create = (.error err, db)) ∨
    (∃ todo, TodoService.CreateTodo db newId now1 now2 create = (.ok todo, db ++ [todo.toRow]) ∧
      todo.CreatedAt = now1 ∧ todo.UpdatedAt = now2 ∧ todo.Title ≠ "") := by
  unfold TodoService.CreateTodo
  by_cases ht : create.Title = ""
  · exact Or.inl ⟨_, by rw [if_pos ht]⟩
  · rw [if_neg ht]
    cases hn : NewTodo newId now1 now2 create with
    | error err => exact Or.inl ⟨_, rfl⟩
    | ok todo =>
      simp only
      unfold TodoRepository.Create
      by_cases ha : db.any (fun r => r.id == todo.ID) = true
      · rw [if_pos ha]
        exact Or.inl ⟨_, rfl⟩
      · rw [if_neg ha]
        obtain ⟨h1, h2, h3⟩ := newTodo_stamps newId now1 now2 create todo hn
        exact Or.inr ⟨todo, rfl, h1, h2, by rw [h3]; exact ht⟩

/-- What `UpdateTodo` can do to the store: nothing when it fails, the `UPDATE`
with the returned entity when it succeeds. -/
theorem updateTodo_cases (db : Table) (now : Nat) (id : String) (update : TodoUpdate) :
    (∃ err, TodoService.UpdateTodo db now id update = (.error err, db)) ∨
    (∃ r updated, db.find? (fun r => r.id == id) = some r ∧
      TodoService.UpdateTodo db now id update
        = (.ok updated, TodoRepository.execUpdate db updated)) := by
  cases hfind : db.find? (fun r => r.id == id) with
  | none =>
    left
    refine ⟨errNotFound, ?_⟩
    unfold TodoService.UpdateTodo
    rw [getByID_eq, hfind]
    rfl
  | some r =>
    unfold TodoService.UpdateTodo
    rw [getByID_eq, hfind]
    simp only [Option.map_some']
    unfold TodoRepository.Update
    rw [getByID_eq, hfind]
    simp only [Option.map_some']
    cases hd : TodoRepository.applyDueDate (TodoRepository.applyFields r.scan update)
        update.DueDate with
    | error err => exact Or.inl ⟨_, rfl⟩
    | ok t1 => exact Or.inr ⟨r, _, rfl, rfl⟩

theorem deleteTodo_subset (db : Table) (id : String) :
    ∀ r ∈ (TodoService.DeleteTodo db id).2, r ∈ db := by
  intro r hr
  unfold TodoService.DeleteTodo at hr
  rw [getByID_eq] at hr
  cases hfind : db.find? (fun r => r.id == id) with
  | none =>
    rw [hfind] at hr
    exact hr
  | some r0 =>
    rw [hfind] at hr
    exact (List.mem_filter.1 hr).1

theorem mem_execUpdate (db : Table) (todo : Todo) (r : Row)
    (h : r ∈ TodoRepository.execUpdate db todo) :
    r ∈ db ∨ ∃ r0 ∈ db, r0.id = todo.ID ∧ r = TodoRepository.setColumns r0 todo := by
  unfold TodoRepository.execUpdate at h
  obtain ⟨r0, hr0, heq⟩ := List.mem_map.1 h
  by_cases hid : r0.id = todo.ID
  · rw [if_pos hid] at heq
    exact Or.inr ⟨r0, hr0, hid, heq.symm⟩
  · rw [if_neg hid] at heq
    rw [← heq]
    exact Or.inl hr0

/-- One call keeps the timestamp invariant: if every stored row has
`created_at ≤ updated_at` with `updated_at` among the readings `past`, and the
call's own readings are non-decreasing and not below any of `past`, the same
holds afterwards with the call's readings added. -/
theorem call_keeps_stamps (db : Table) (past : List Nat) (c : Call)
    (hinv : ∀ r ∈ db, r.created_at ≤ r.updated_at ∧ r.updated_at ∈ past)
    (hown : c.readings.Pairwise (fun a b => a ≤ b))
    (hafter : ∀ a ∈ past, ∀ b ∈ c.readings, a ≤ b) :
    ∀ r ∈ c.run db, r.created_at ≤ r.updated_at ∧ r.updated_at ∈ past ++ c.readings := by
  have hkeep : ∀ r ∈ db, r.created_at ≤ r.updated_at ∧ r.updated_at ∈ past ++ c.readings :=
    fun r hr => ⟨(hinv r hr).1, List.mem_append_left _ (hinv r hr).2⟩
  cases c with
  | create newId now1 now2 input =>
    intro r hr
    simp only [Call.run] at hr
    rcases createTodo_cases db newId now1 now2 input with ⟨err, he⟩ | ⟨todo, he, h1, h2, -⟩
    · rw [he] at hr
      exact hkeep r hr
    · rw [he] at hr
      rcases List.mem_append.1 hr with hr | hr
      · exact hkeep r hr
      · rw [List.mem_singleton] at hr
        subst hr
        simp only [Call.readings, List.pairwise_cons] at hown
        refine ⟨?_, ?_⟩
        · show todo.CreatedAt ≤ todo.UpdatedAt
          rw [h1, h2]
          exact hown.1 now2 (List.mem_singleton.2 rfl)
        · show todo.UpdatedAt ∈ past ++ [now1, now2]
          rw [h2]
          simp
  | update now id input =>
    intro r hr
    simp only [Call.run] at hr
    rcases updateTodo_cases db now id input with ⟨err, he⟩ | ⟨r1, updated, hfind, he⟩
    · rw [he] at hr
      exact hkeep r hr
    · obtain ⟨-, -, -, hup, -⟩ := updateTodo_ok_shape db now id input r1 updated _ hfind he
      rw [he] at hr
      rcases mem_execUpdate db updated r hr with hr | ⟨r0, hr0, -, rfl⟩
      · exact hkeep r hr
      · refine ⟨?_, ?_⟩
        · show r0.created_at ≤ updated.UpdatedAt
          rw [hup]
          exact Nat.le_trans (hinv r0 hr0).1
            (hafter _ (hinv r0 hr0).2 now (List.mem_singleton.2 rfl))
        · show updated.UpdatedAt ∈ past ++ [now]
          rw [hup]
          simp
  | delete id =>
    intro r hr
    exact hkeep r (deleteTodo_subset db id r hr)

theorem runCalls_append (db : Table) (pre : List Call) (c : Call) :
    runCalls db (pre ++ [c]) = c.run (runCalls db pre) := by
  unfold runCalls
  rw [List.foldl_append]
  rfl

/-- Along a run from the empty store at non-decreasing clock readings every
stored row has `created_at ≤ updated_at`, and `updated_at` is one of the
readings taken so far. -/
theorem runCalls_stamps (calls : List Call)
    (hclock : (calls.flatMap Call.readings).Pairwise (fun a b => a ≤ b)) :
    ∀ r ∈ runCalls [] calls,
      r.created_at ≤ r.updated_at ∧ r.updated_at ∈ calls.flatMap Call.readings := by
  induction calls using List.reverseRecOn with
  | nil =>
    intro r hr
    exact absurd hr (List.not_mem_nil r)
  | append_singleton pre c ih =>
    rw [List.flatMap_append, List.pairwise_append] at hclock
    obtain ⟨hpre, hc, hcross⟩ := hclock
    have hc1 : c.readings.Pairwise (fun a b => a ≤ b) := by
      simpa [List.flatMap] using hc
    have hcross1 : ∀ a ∈ pre.flatMap Call.readings, ∀ b ∈ c.readings, a ≤ b := by
      intro a ha b hb
      exact hcross a ha b (by simpa [List.flatMap] using hb)
    rw [runCalls_append, List.flatMap_append]
    have hlast : [c].flatMap Call.readings = c.readings := by
      simp [List.flatMap]
    rw [hlast]
    exact call_keeps_stamps _ _ c (ih hpre) hc1 hcross1


/-- One call keeps titles non-empty unless it is an update that supplies the
empty title. -/
theorem call_keeps_titles (db : Table) (c : Call) (hinv : ∀ r ∈ db, r.title ≠ "")
    (hc : ∀ now id input, c = Call.update now id input → input.Title ≠ some "") :
    ∀ r ∈ c.run db, r.title ≠ "" := by
  cases c with
  | create newId now1 now2 input =>
    intro r hr
    simp only [Call.run] at hr
    rcases createTodo_cases db newId now1 now2 input with ⟨err, he⟩ | ⟨todo, he, -, -, ht⟩
    · rw [he] at hr
      exact hinv r hr
    · rw [he] at hr
      rcases List.mem_append.1 hr with hr | hr
      · exact hinv r hr
      · rw [List.mem_singleton] at hr
        subst hr
        exact ht
  | update now id input =>
    intro r hr
    simp only [Call.run] at hr
    rcases updateTodo_cases db now id input with ⟨err, he⟩ | ⟨r1, updated, hfind, he⟩
    · rw [he] at hr
      exact hinv r hr
    · obtain ⟨-, -, -, -, hti, -⟩ := updateTodo_ok_shape db now id input r1 updated _ hfind he
      rw [he] at hr
      rcases mem_execUpdate db updated r hr with hr | ⟨r0, -, -, rfl⟩
      · exact hinv r hr
      · show updated.Title ≠ ""
        rw [hti]
        cases hin : input.Title with
        | none => exact hinv r1 (List.mem_of_find?_eq_some hfind)
        | some v =>
          intro hv
          apply hc now id input rfl
          rw [hin]
          exact congrArg some hv
  | delete id =>
    intro r hr
    exact hinv r (deleteTodo_subset db id r hr)

/-- Along a run from the empty store in which no update supplies the empty
title, every stored todo has a non-empty title. -/
theorem runCalls_titles (calls : List Call)
    (hupd : ∀ now id input, Call.update now id input ∈ calls → input.Title ≠ some "") :
    ∀ r ∈ runCalls [] calls, r.title ≠ "" := by
  induction calls using List.reverseRecOn with
  | nil =>
    intro r hr
    exact absurd hr (List.not_mem_nil r)
  | append_singleton pre c ih =>
    rw [runCalls_append]
    apply call_keeps_titles
    · exact ih (fun now id input hmem => hupd now id input (List.mem_append_left _ hmem))
    · intro now id input hc
      apply hupd now id input
      rw [hc]
      simp

/-- C13: along every sequence of `CreateTodo`, `UpdateTodo` and `DeleteTodo`
calls from the empty store whose successive clock readings are non-decreasing,
every stored todo has `updated_at ≥ created_at`, every entity returned by a
`CreateTodo` or an `UpdateTodo` of the sequence has `updated_at ≥ created_at`,
and every successful `UpdateTodo` returns and stores, under the updated id, the
clock reading of that update as `updated_at`, whatever the payload. -/
theorem updated_at_ge_created_at (calls : List Call)
    (hclock : (calls.flatMap Call.readings).Pairwise (fun a b => a ≤ b)) :
    (∀ r ∈ runCalls [] calls, r.created_at ≤ r.updated_at) ∧
    (∀ (pre post : List Call) (newId : String) (now1 now2 : Nat) (input : TodoCreate)
        (todo : Todo) (db1 : Table),
      calls = pre ++ Call.create newId now1 now2 input :: post →
      TodoService.CreateTodo (runCalls [] pre) newId now1 now2 input = (.ok todo, db1) →
      todo.CreatedAt ≤ todo.UpdatedAt) ∧
    (∀ (pre post : List Call) (now : Nat) (id : String) (input : TodoUpdate)
        (updated : Todo) (db1 : Table),
      calls = pre ++ Call.update now id input :: post →
      TodoService.UpdateTodo (runCalls [] pre) now id input = (.ok updated, db1) →
      updated.CreatedAt ≤ updated.UpdatedAt ∧ updated.UpdatedAt = now ∧
      ∀ r ∈ db1, r.id = id → r.updated_at = now) := by
  refine ⟨fun r hr => (runCalls_stamps calls hclock r hr).1, ?_, ?_⟩
  · intro pre post newId now1 now2 input todo db1 hcalls hcreate
    subst hcalls
    rw [List.flatMap_append, List.pairwise_append] at hclock
    obtain ⟨-, hrest, -⟩ := hclock
    have h12 : now1 ≤ now2 := by
      simp only [List.flatMap_cons, Call.readings, List.cons_append, List.nil_append,
        List.pairwise_cons] at hrest
      exact hrest.1 now2 (List.mem_cons_self _ _)
    rcases createTodo_cases (runCalls [] pre) newId now1 now2 input with
      ⟨err, he⟩ | ⟨todo1, he, h1, h2, -⟩
    · rw [he] at hcreate
      simp at hcreate
    · rw [he] at hcreate
      simp only [Prod.mk.injEq, Except.ok.injEq] at hcreate
      rw [← hcreate.1, h1, h2]
      exact h12
  · intro pre post now id input updated db1 hcalls hupd
    subst hcalls
    rw [List.flatMap_append, List.pairwise_append] at hclock
    obtain ⟨hpre, -, hcross⟩ := hclock
    have hnow : ∀ a ∈ pre.flatMap Call.readings, a ≤ now := by
      intro a ha
      apply hcross a ha now
      simp [List.flatMap_cons, Call.readings]
    rcases updateTodo_cases (runCalls [] pre) now id input with
      ⟨err, he⟩ | ⟨r, updated1, hfind, he⟩
    · rw [he] at hupd
      simp at hupd
    · obtain ⟨hdb, hid, hcr, hup, -⟩ :=
        updateTodo_ok_shape (runCalls [] pre) now id input r updated db1 hfind hupd
      have hmem : r ∈ runCalls [] pre := List.mem_of_find?_eq_some hfind
      obtain ⟨hle, hin⟩ := runCalls_stamps pre hpre r hmem
      refine ⟨?_, hup, ?_⟩
      · rw [hcr, hup]
        exact Nat.le_trans hle (hnow _ hin)
      · intro r1 hr1 hr1id
        rw [hdb] at hr1
        unfold TodoRepository.execUpdate at hr1
        obtain ⟨r0, -, heq⟩ := List.mem_map.1 hr1
        by_cases h0 : r0.id = updated.ID
        · rw [if_pos h0] at heq
          rw [← heq]
          exact hup
        · rw [if_neg h0] at heq
          rw [heq, hr1id, hid] at h0
          exact absurd rfl h0

/-- Witness of C13: the five-call run `exampleCalls`, whose readings
100, 101, 102, 102, 103, 105 are non-decreasing and whose second call is an
update that changes no value: it leaves `updated_at = 102`, and the run ends
with `created_at = 100` and `updated_at = 105`. -/
theorem updated_at_ge_created_at_witness :
    (runCalls [] (exampleCalls.take 2)).map (fun r => (r.id, r.created_at, r.updated_at))
      = [("t1", 100, 102)] ∧
    (runCalls [] exampleCalls).map (fun r => (r.id, r.created_at, r.updated_at))
      = [("t1", 100, 105)] ∧
    (∀ r ∈ runCalls [] exampleCalls, r.created_at ≤ r.updated_at) ∧
    (∀ (pre post : List Call) (newId : String) (now1 now2 : Nat) (input : TodoCreate)
        (todo : Todo) (db1 : Table),
      exampleCalls = pre ++ Call.create newId now1 now2 input :: post →
      TodoService.CreateTodo (runCalls [] pre) newId now1 now2 input = (.ok todo, db1) →
      todo.CreatedAt ≤ todo.UpdatedAt) ∧
    (∀ (pre post : List Call) (now : Nat) (id : String) (input : TodoUpdate)
        (updated : Todo) (db1 : Table),
      exampleCalls = pre ++ Call.update now id input :: post →
      TodoService.UpdateTodo (runCalls [] pre) now id input = (.ok updated, db1) →
      updated.CreatedAt ≤ updated.UpdatedAt ∧ updated.UpdatedAt = now ∧
      ∀ r ∈ db1, r.id = id → r.updated_at = now) :=
  ⟨by decide, by decide, updated_at_ge_created_at exampleCalls (by decide)⟩

end TodoApi
